import Mathlib

/-!
Verification development for the SelectQuery builder of the uptrace-bun
repository (`query_select.go`).

The builder state, its configuration operations and the render algorithm are
translated from the source file.  Collaborators that live outside the given
source (the `schema` fragment model, the `baseQuery`/`whereBaseQuery` helpers,
table metadata, the relation resolver internals and the dialect formatter) are
modelled from the specification; every such definition carries a doc comment
starting `Modelled from the spec:`.

SQL output is modelled as a character buffer (`List Char`); machine `int32`
arithmetic is modelled on `Int` with an explicit wrap.
-/

set_option autoImplicit false

namespace Bun

/-- Errors are represented by their message strings. -/
abbrev Err := String

/-- The outcome of rendering a query: the SQL character buffer, or an error. -/
abbrev RenderResult := Except Err (List Char)

/-- A string literal viewed as a character buffer (the `[]byte` SQL buffer of
the source). -/
def L (s : String) : List Char := s.data

/-- Modelled from the spec: a formatted argument of a safe fragment — a quoted
identifier (`Ident`), a raw SQL snippet (`Safe`), or an ordinary value.  The
dialect formatter's quoting is abstracted into the payload text. -/
inductive Arg where
  | ident (s : String)
  | safe (s : String)
  | value (s : String)
  deriving DecidableEq

/-- The text an argument contributes when substituted into a placeholder. -/
def Arg.text : Arg → String
  | .ident s => s
  | .safe s => s
  | .value s => s

/-- Modelled from the spec: a fragment is a template string plus an optional
argument list.  `Args = none` marks an unsafe raw identifier (`UnsafeIdent`);
safe fragments always carry a (possibly empty) argument list, which is how the
source distinguishes the two (`col.Args == nil`). -/
structure QueryWithArgs where
  Query : String
  Args : Option (List Arg)
  deriving DecidableEq

/-- Modelled from the spec: constructor of a safe (parameterized) fragment. -/
def SafeQuery (query : String) (args : List Arg) : QueryWithArgs :=
  ⟨query, some args⟩

/-- Modelled from the spec: constructor of an unsafe raw-identifier fragment. -/
def UnsafeIdent (ident : String) : QueryWithArgs :=
  ⟨ident, none⟩

/-- Modelled from the spec: a fragment is zero when both parts are unset. -/
def QueryWithArgs.IsZero (q : QueryWithArgs) : Bool :=
  q.Query == "" && q.Args.isNone

/-- Modelled from the spec: a fragment together with the separator that joins
it to the preceding one (AND/OR). -/
structure QueryWithSep extends QueryWithArgs where
  Sep : String
  deriving DecidableEq

/-- Modelled from the spec: constructor of a safe fragment with separator. -/
def SafeQueryWithSep (query : String) (args : List Arg) (sep : String) : QueryWithSep :=
  ⟨SafeQuery query args, sep⟩

/-- Modelled from the spec: the accumulated WHERE clause is an ordered sequence
of conditions, each carrying its separator; an explicit group nests the
sequence that was built while the parent's conditions were hidden. -/
inductive WhereItem where
  | cond (w : QueryWithSep)
  | group (sep : String) (items : List WhereItem)

/-- Modelled from the spec: the dialect formatter, reduced to the single
capability the select renderer consults (`IsNop`). -/
structure Formatter where
  isNop : Bool
  deriving DecidableEq

/-- Modelled from the spec: placeholder substitution — each `?` consumes the
next argument; surplus placeholders are left verbatim. -/
def substArgs : List Char → List Arg → List Char
  | [], _ => []
  | '?' :: cs, a :: rest => (Arg.text a).data ++ substArgs cs rest
  | '?' :: cs, [] => '?' :: substArgs cs []
  | c :: cs, args => c :: substArgs cs args

/-- Modelled from the spec: rendering a fragment — an unsafe identifier is
emitted verbatim, a safe fragment has its placeholders substituted. -/
def QueryWithArgs.render (_fmter : Formatter) (x : QueryWithArgs) : List Char :=
  match x.Args with
  | none => x.Query.data
  | some args => substArgs x.Query.data args

/-- Joins rendered pieces with a separator (the `if i > 0` comma logic of the
source loops). -/
def joinSep (sep : List Char) : List (List Char) → List Char
  | [] => []
  | [x] => x
  | x :: rest => x ++ sep ++ joinSep sep rest

/-- A field descriptor of the table metadata (logical name and storage column
name, the two parts the select renderer reads). -/
structure Field where
  Name : String
  SQLName : String
  deriving DecidableEq

/-- Modelled from the spec: table metadata as read by the select renderer —
textual rendering used in error messages, quoted name and alias, the ordered
field list with its name lookup, and the optional before/after select hook
capabilities of the entity type (`none` = capability absent, `some r` =
present with result `r`). -/
structure TableData where
  str : String
  SQLName : String
  SQLAlias : String
  Fields : List Field
  FieldMap : List (String × Field)
  beforeSelect : Option (Option Err)
  afterSelect : Option (Option Err)
  deriving DecidableEq

/-- The relation kinds of the schema package. -/
inductive RelationType where
  | hasOne
  | belongsTo
  | hasMany
  | manyToMany
  deriving DecidableEq

/-- The kinds resolved via a join (the `HasOneRelation, BelongsToRelation`
switch cases of the source). -/
def RelationType.toOne : RelationType → Bool
  | .hasOne => true
  | .belongsTo => true
  | _ => false

/-- A resolved relation join.  `columns`, the relation type and the nested
join model's table and joins mirror the runtime join structure; `joinSQL` and
`alias` are modelled from the spec (the JOIN fragment `appendHasOneJoin`
renders, and the relation-prefixed alias), and `selectErr` is the outcome of
the follow-up query a non-to-one relation issues (`j.Select`). -/
inductive join where
  | mk (relType : RelationType) (name : String)
      (columns : Option (List QueryWithArgs))
      (joinSQL : String) (aliasName : String)
      (table : TableData)
      (subJoins : List join)
      (selectErr : Option Err)

def join.relType : join → RelationType
  | .mk rt _ _ _ _ _ _ _ => rt

def join.name : join → String
  | .mk _ n _ _ _ _ _ _ => n

def join.columns : join → Option (List QueryWithArgs)
  | .mk _ _ c _ _ _ _ _ => c

def join.joinSQL : join → String
  | .mk _ _ _ s _ _ _ _ => s

def join.aliasName : join → String
  | .mk _ _ _ _ a _ _ _ => a

def join.table : join → TableData
  | .mk _ _ _ _ _ t _ _ => t

def join.subJoins : join → List join
  | .mk _ _ _ _ _ _ js _ => js

def join.selectErr : join → Option Err
  | .mk _ _ _ _ _ _ _ e => e

/-- Modelled from the spec: the bound table model — its table metadata, the
candidate join each declared relation name resolves to (the relation
resolution contract), and the joins registered so far. -/
structure TableModel where
  table : TableData
  rels : List (String × join)
  joins : List join

/-- An explicit join added by `Join`/`JoinOn` (the `joinQuery` of the source). -/
structure JoinQuery where
  join : QueryWithArgs
  onConds : List QueryWithSep
  deriving DecidableEq

/-- The select query builder state (`SelectQuery` plus the inherited
`whereBaseQuery`/`baseQuery` fields the select path uses).  A set-operation
entry stores the sub-query's own `AppendQuery` outcome, since that render only
appends to the running buffer. -/
structure SelectQuery where
  err : Option Err := none
  table : Option TableData := none
  tableModel : Option TableModel := none
  modelTable : QueryWithArgs := UnsafeIdent ""
  withq : List (String × List Char) := []
  tables : List QueryWithArgs := []
  columns : Option (List QueryWithArgs) := none
  whereList : List WhereItem := []
  distinctOn : Option (List QueryWithArgs) := none
  joins : List JoinQuery := []
  group : List QueryWithArgs := []
  having : List QueryWithArgs := []
  order : List QueryWithArgs := []
  limit : Int := 0
  offset : Int := 0
  selFor : QueryWithArgs := UnsafeIdent ""
  union : List (String × RenderResult) := []

/-- A fresh builder (`NewSelectQuery`; the db/conn handles are outside the
model). -/
def NewSelectQuery : SelectQuery := {}

/-- Two's-complement wrap to 32 bits (the `int32(n)` conversions of the
source). -/
def int32 (n : Int) : Int := (n + 2 ^ 31) % 2 ^ 32 - 2 ^ 31

namespace SelectQuery

/-- Modelled from the spec: the first-error slot — an error is recorded only
when none is stored yet. -/
def setErr (q : SelectQuery) (e : Err) : SelectQuery :=
  if q.err.isNone then { q with err := some e } else q

/-- Modelled from the spec: register a CTE (`addWith`); the body stores the
wrapped query's rendered text. -/
def addWith (q : SelectQuery) (name : String) (body : List Char) : SelectQuery :=
  { q with withq := q.withq ++ [(name, body)] }

def With (q : SelectQuery) (name : String) (body : List Char) : SelectQuery :=
  q.addWith name body

def Distinct (q : SelectQuery) : SelectQuery :=
  { q with distinctOn := some [] }

def DistinctOn (q : SelectQuery) (query : String) (args : List Arg) : SelectQuery :=
  { q with distinctOn := some (q.distinctOn.getD [] ++ [SafeQuery query args]) }

/-- Modelled from the spec: append a table fragment (`addTable`). -/
def addTable (q : SelectQuery) (t : QueryWithArgs) : SelectQuery :=
  { q with tables := q.tables ++ [t] }

def Table (q : SelectQuery) (tbls : List String) : SelectQuery :=
  tbls.foldl (fun q t => q.addTable (UnsafeIdent t)) q

def TableExpr (q : SelectQuery) (query : String) (args : List Arg) : SelectQuery :=
  q.addTable (SafeQuery query args)

def ModelTableExpr (q : SelectQuery) (query : String) (args : List Arg) : SelectQuery :=
  { q with modelTable := SafeQuery query args }

/-- Modelled from the spec: append a column fragment (`addColumn`). -/
def addColumn (q : SelectQuery) (c : QueryWithArgs) : SelectQuery :=
  { q with columns := some (q.columns.getD [] ++ [c]) }

def Column (q : SelectQuery) (cols : List String) : SelectQuery :=
  cols.foldl (fun q c => q.addColumn (UnsafeIdent c)) q

def ColumnExpr (q : SelectQuery) (query : String) (args : List Arg) : SelectQuery :=
  q.addColumn (SafeQuery query args)

/-- Modelled from the spec: append a WHERE condition (`addWhere`). -/
def addWhere (q : SelectQuery) (w : QueryWithSep) : SelectQuery :=
  { q with whereList := q.whereList ++ [WhereItem.cond w] }

def Where (q : SelectQuery) (query : String) (args : List Arg) : SelectQuery :=
  q.addWhere (SafeQueryWithSep query args " AND ")

def WhereOr (q : SelectQuery) (query : String) (args : List Arg) : SelectQuery :=
  q.addWhere (SafeQueryWithSep query args " OR ")

/-- Modelled from the spec: append the conditions accumulated inside a group
callback as one grouped condition with the given separator; nothing is
appended when the callback accumulated no conditions. -/
def addWhereGroup (q : SelectQuery) (sep : String) (items : List WhereItem) : SelectQuery :=
  if items.isEmpty then q
  else { q with whereList := q.whereList ++ [WhereItem.group sep items] }

/-- `WhereGroup` (source lines 134-146): hide the parent's WHERE list, run the
callback, then restore the parent's list and group what the callback built. -/
def WhereGroup (q : SelectQuery) (sep : String)
    (fn : SelectQuery → SelectQuery) : SelectQuery :=
  let saved := q.whereList
  let q := { q with whereList := [] }
  let q := fn q
  let whereItems := q.whereList
  let q := { q with whereList := saved }
  q.addWhereGroup sep whereItems

def Group (q : SelectQuery) (cols : List String) : SelectQuery :=
  cols.foldl (fun q c => { q with group := q.group ++ [UnsafeIdent c] }) q

def GroupExpr (q : SelectQuery) (g : String) (args : List Arg) : SelectQuery :=
  { q with group := q.group ++ [SafeQuery g args] }

def Having (q : SelectQuery) (h : String) (args : List Arg) : SelectQuery :=
  { q with having := q.having ++ [SafeQuery h args] }

end SelectQuery

/-- Modelled from the spec: uppercasing (`strings.ToUpper`); the sort
directions involved are ASCII, for which per-character uppercasing agrees with
the Go function. -/
def toUpperStr (s : String) : String := ⟨s.data.map Char.toUpper⟩

/-- Index of the first space character (`strings.IndexByte(order, ' ')`;
a space is a single byte in UTF-8, so the character index and the byte index
select the same split point). -/
def spaceIdx (s : String) : Option Nat :=
  s.data.findIdx? (fun c => c = ' ')

/-- The sort directions the `Order` switch recognizes. -/
def sortDirections : List String :=
  ["ASC", "DESC", "ASC NULLS FIRST", "DESC NULLS FIRST",
   "ASC NULLS LAST", "DESC NULLS LAST"]

namespace SelectQuery

/-- One iteration of the `Order` loop (source lines 177-204). -/
def orderStep (q : SelectQuery) (order : String) : SelectQuery :=
  if order = "" then q
  else
    match spaceIdx order with
    | none => { q with order := q.order ++ [UnsafeIdent order] }
    | some index =>
      let field : String := ⟨order.data.take index⟩
      let sort : String := ⟨order.data.drop (index + 1)⟩
      if toUpperStr sort ∈ sortDirections then
        { q with order := q.order ++ [SafeQuery "? ?" [Arg.ident field, Arg.safe sort]] }
      else
        { q with order := q.order ++ [UnsafeIdent order] }

def Order (q : SelectQuery) (orders : List String) : SelectQuery :=
  orders.foldl orderStep q

def OrderExpr (q : SelectQuery) (query : String) (args : List Arg) : SelectQuery :=
  { q with order := q.order ++ [SafeQuery query args] }

def Limit (q : SelectQuery) (n : Int) : SelectQuery :=
  { q with limit := int32 n }

def Offset (q : SelectQuery) (n : Int) : SelectQuery :=
  { q with offset := int32 n }

def For (q : SelectQuery) (s : String) (args : List Arg) : SelectQuery :=
  { q with selFor := SafeQuery s args }

/-- `addUnion`: records the set-operation expression together with the other
query's own render outcome (its `AppendQuery` only appends to the buffer). -/
def addUnion (q : SelectQuery) (expr : String)
    (other : RenderResult) : SelectQuery :=
  { q with union := q.union ++ [(expr, other)] }

def Union (q : SelectQuery) (other : RenderResult) : SelectQuery :=
  q.addUnion " UNION " other

def UnionAll (q : SelectQuery) (other : RenderResult) : SelectQuery :=
  q.addUnion " UNION ALL " other

def Intersect (q : SelectQuery) (other : RenderResult) : SelectQuery :=
  q.addUnion " INTERSECT " other

def IntersectAll (q : SelectQuery) (other : RenderResult) : SelectQuery :=
  q.addUnion " INTERSECT ALL " other

def Except (q : SelectQuery) (other : RenderResult) : SelectQuery :=
  q.addUnion " EXCEPT " other

def ExceptAll (q : SelectQuery) (other : RenderResult) : SelectQuery :=
  q.addUnion " EXCEPT ALL " other

def Join (q : SelectQuery) (join : String) (args : List Arg) : SelectQuery :=
  { q with joins := q.joins ++ [⟨SafeQuery join args, []⟩] }

/-- `joinOn` (source lines 277-285): with no joins the error is recorded and
the builder returned; otherwise the condition is appended to the last join. -/
def joinOn (q : SelectQuery) (cond : String) (args : List Arg) (sep : String) : SelectQuery :=
  match q.joins.getLast? with
  | none => { q with err := some "bun: query has no joins" }
  | some j =>
    { q with joins := q.joins.dropLast ++ [{ j with onConds := j.onConds ++ [SafeQueryWithSep cond args sep] }] }

def JoinOn (q : SelectQuery) (cond : String) (args : List Arg) : SelectQuery :=
  q.joinOn cond args " AND "

def JoinOnOr (q : SelectQuery) (cond : String) (args : List Arg) : SelectQuery :=
  q.joinOn cond args " OR "

end SelectQuery

/-- The nil-model error (`errNilModel`). -/
def errNilModel : Err := "bun: Model(nil)"

/-- Modelled from the spec: relation resolution by name against the bound
model's metadata (`tableModel.Join`); the apply callback, when given, is
already folded into the candidate join's data. -/
def lookupRel (tm : TableModel) (name : String) : Option join :=
  tm.rels.lookup name

namespace SelectQuery

/-- Textual rendering of `q.table` as the `%s` verb formats it. -/
def tableString (q : SelectQuery) : String :=
  match q.table with
  | some t => t.str
  | none => "<nil>"

/-- `Relation` (source lines 293-314). -/
def Relation (q : SelectQuery) (name : String) : SelectQuery :=
  match q.tableModel with
  | none => q.setErr errNilModel
  | some tm =>
    match lookupRel tm name with
    | none => q.setErr (q.tableString ++ " does not have relation=\"" ++ name ++ "\"")
    | some j => { q with tableModel := some { tm with joins := tm.joins ++ [j] } }

end SelectQuery

/-- The recursive to-one traversal (`_forEachHasOneJoin`, source lines
316-337), as a fold: visit each to-one join, then its join model's joins
recursively, skipping other relation kinds. -/
def foldHasOneJoins {σ : Type} (f : join → σ → σ) : List join → σ → σ
  | [], s => s
  | join.mk rt n c sql al tb sub se :: rest, s =>
    if rt.toOne then
      foldHasOneJoins f rest (foldHasOneJoins f sub (f (join.mk rt n c sql al tb sub se) s))
    else
      foldHasOneJoins f rest s

/-- The to-one joins in visit order: each to-one join of the list, followed by
its nested to-one joins, recursively, in declaration order. -/
def hasOneJoins : List join → List join
  | [] => []
  | join.mk rt n c sql al tb sub se :: rest =>
    if rt.toOne then
      join.mk rt n c sql al tb sub se :: (hasOneJoins sub ++ hasOneJoins rest)
    else
      hasOneJoins rest

theorem foldHasOneJoins_eq {σ : Type} (f : join → σ → σ) (l : List join) (s : σ) :
    foldHasOneJoins f l s = (hasOneJoins l).foldl (fun a j => f j a) s := by
  induction l, s using foldHasOneJoins.induct (f := f) with
  | case1 s => simp [foldHasOneJoins, hasOneJoins]
  | case2 rt n c sql al tb sub se rest s h ih1 ih2 =>
    simp only [foldHasOneJoins, hasOneJoins, if_pos h, List.foldl_cons, List.foldl_append]
    rw [ih2, ih1]
  | case3 rt n c sql al tb sub se rest s h ih =>
    simp only [foldHasOneJoins, hasOneJoins, if_neg h]
    exact ih

namespace SelectQuery

/-- The joins registered on the bound model (empty when no model is bound). -/
def modelJoins (q : SelectQuery) : List join :=
  match q.tableModel with
  | none => []
  | some tm => tm.joins

/-- `forEachHasOneJoin` (source lines 316-321). -/
def forEachHasOneJoin {σ : Type} (q : SelectQuery) (f : join → σ → σ) (s : σ) : σ :=
  match q.tableModel with
  | none => s
  | some tm => foldHasOneJoins f tm.joins s

/-- The implicit to-one joins of the query, flattened in visit order. -/
def hasOneClosure (q : SelectQuery) : List join :=
  hasOneJoins q.modelJoins

theorem forEachHasOneJoin_eq {σ : Type} (q : SelectQuery) (f : join → σ → σ) (s : σ) :
    q.forEachHasOneJoin f s = q.hasOneClosure.foldl (fun a j => f j a) s := by
  cases hq : q.tableModel with
  | none => simp [forEachHasOneJoin, hasOneClosure, modelJoins, hq, hasOneJoins]
  | some tm => simp [forEachHasOneJoin, hasOneClosure, modelJoins, hq, foldHasOneJoins_eq]

end SelectQuery

/-- `bytes.TrimSuffix(b, ", ")`: remove one trailing `", "` if present. -/
def trimCS (b : List Char) : List Char :=
  if b.reverse.take 2 = [' ', ','] then (b.reverse.drop 2).reverse else b

/-- A buffer that ends in a space and not in `", "` — the shape of the buffer
just after `SELECT ` / `DISTINCT ` / `DISTINCT ON (...) `. -/
def GoodTail (b : List Char) : Prop :=
  b.reverse.head? = some ' ' ∧ b.reverse.take 2 ≠ [' ', ',']

theorem trimCS_append (p s : List Char) (hp : GoodTail p) :
    trimCS (p ++ s) = p ++ trimCS s := by
  obtain ⟨h1, h2⟩ := hp
  obtain ⟨pr, hpr⟩ : ∃ pr, p.reverse = ' ' :: pr := by
    cases hh : p.reverse with
    | nil => rw [hh] at h1; simp at h1
    | cons a t =>
      rw [hh] at h1
      simp at h1
      exact ⟨t, by rw [h1]⟩
  rcases hrev : s.reverse with _ | ⟨a, t⟩
  · have hs : s = [] := by
      have := congrArg List.reverse hrev
      simpa using this
    subst hs
    simp [trimCS, h2]
  · rcases t with _ | ⟨a2, t2⟩
    · have hs : s = [a] := by
        have := congrArg List.reverse hrev
        simpa using this
      subst hs
      have hrme : (p ++ [a]).reverse = a :: ' ' :: pr := by
        simp [List.reverse_append, hpr]
      simp [trimCS, hrme]
    · have hs : s = t2.reverse ++ [a2, a] := by
        have := congrArg List.reverse hrev
        simpa using this
      have hrme : (p ++ s).reverse = a :: a2 :: (t2 ++ p.reverse) := by
        simp [List.reverse_append, hrev]
      by_cases hc : a = ' ' ∧ a2 = ','
      · obtain ⟨ha, ha2⟩ := hc
        subst ha; subst ha2
        simp [trimCS, hrme, hrev]
      · have hne : ¬([a, a2] = [' ', ',']) := by
          intro hcon
          apply hc
          constructor
          · exact (List.cons.injEq .. ▸ hcon).1
          · have := (List.cons.injEq .. ▸ hcon).2
            exact (List.cons.injEq .. ▸ this).1
        simp [trimCS, hrme, hrev, hne]

theorem foldl_apnd {α : Type} (g : α → List Char) (l : List α) (p s : List Char) :
    l.foldl (fun b x => b ++ g x) (p ++ s) = p ++ l.foldl (fun b x => b ++ g x) s := by
  induction l generalizing s with
  | nil => rfl
  | cons x xs ih =>
    simp only [List.foldl_cons, List.append_assoc]
    exact ih (s ++ g x)

/-- A separator of a WHERE entry (used for entries after the first). -/
def WhereItem.sep : WhereItem → String
  | .cond w => w.Sep
  | .group s _ => s

mutual

/-- Modelled from the spec: one WHERE condition — an atomic condition or a
group, each parenthesized. -/
def renderWhereItem (fmter : Formatter) : WhereItem → List Char
  | .cond w => L "(" ++ QueryWithArgs.render fmter w.toQueryWithArgs ++ L ")"
  | .group _ items => L "(" ++ renderWhereFirst fmter items ++ L ")"

/-- Modelled from the spec: a WHERE list — the first condition bare, each
following one preceded by its own separator. -/
def renderWhereFirst (fmter : Formatter) : List WhereItem → List Char
  | [] => []
  | i :: rest => renderWhereItem fmter i ++ renderWhereRest fmter rest

def renderWhereRest (fmter : Formatter) : List WhereItem → List Char
  | [] => []
  | i :: rest => (WhereItem.sep i).data ++ renderWhereItem fmter i ++ renderWhereRest fmter rest

end

/-- Modelled from the spec: dialect string-literal quoting
(`dialect.AppendString`; escaping elided). -/
def stringLit (s : String) : List Char :=
  Char.ofNat 39 :: (s.data ++ [Char.ofNat 39])

namespace SelectQuery

/-- The base column list of `appendColumns` (source lines 514-545): the
explicit columns when set (plain names that match a metadata field rendered as
`alias.column`), else all metadata fields (collapsed to a string literal for a
nop formatter on wide tables), else `*`.  A plain-name column with no bound
table would fault in the source (nil map access) and is rendered verbatim
here. -/
def baseColsText (q : SelectQuery) (fmter : Formatter) : List Char :=
  match q.columns with
  | some cols =>
    joinSep (L ", ") (cols.map (fun col =>
      match col.Args, q.table with
      | none, some t =>
        match t.FieldMap.lookup col.Query with
        | some f => L t.SQLAlias ++ L "." ++ L f.SQLName
        | none => col.render fmter
      | _, _ => col.render fmter))
  | none =>
    match q.table with
    | some t =>
      if t.Fields.length > 10 && fmter.isNop then
        L t.SQLAlias ++ L "." ++ stringLit (toString t.Fields.length ++ " columns")
      else
        joinSep (L ", ") (t.Fields.map (fun f => L t.SQLAlias ++ L "." ++ L f.SQLName))
    | none => L "*"

end SelectQuery

/-- The expanded column block of one to-one join (`appendHasOneColumns`,
source lines 568-609): the join's explicit columns when set (a plain name
that matches the base table's field map — as the source checks — rendered
against the join alias), else every field of the joined table, each aliased
with the relation-prefixed name (`alias__field`, modelled from the spec's
`appendAliasColumn`). -/
def hasOneColsBlock (q : SelectQuery) (fmter : Formatter) (j : join) : List Char :=
  match j.columns with
  | some cols =>
    joinSep (L ", ") (cols.map (fun col =>
      match col.Args, q.table with
      | none, some t =>
        match t.FieldMap.lookup col.Query with
        | some f =>
          L j.aliasName ++ L "." ++ L f.SQLName ++ L " AS " ++
            L j.aliasName ++ L "__" ++ L f.Name
        | none => col.render fmter
      | _, _ => col.render fmter))
  | none =>
    joinSep (L ", ") (j.table.Fields.map (fun f =>
      L j.aliasName ++ L "." ++ L f.SQLName ++ L " AS " ++
        L j.aliasName ++ L "__" ++ L f.Name))

namespace SelectQuery

def appendHasOneColumns (q : SelectQuery) (fmter : Formatter) (b : List Char) (j : join) :
    List Char :=
  b ++ hasOneColsBlock q fmter j

/-- One step of the has-one column callback of `appendColumns` (source lines
547-561): prepend `", "` when anything was appended since the marker, then
append the join's column block, tracking the marker. -/
def hasOneColsStep (q : SelectQuery) (fmter : Formatter) (j : join)
    (bs : List Char × Nat) : List Char × Nat :=
  if bs.1.length ≠ bs.2 then
    ((bs.1 ++ L ", ") ++ hasOneColsBlock q fmter j, (bs.1 ++ L ", ").length)
  else
    (bs.1 ++ hasOneColsBlock q fmter j, bs.2)

/-- `appendColumns` (source lines 511-566). -/
def appendColumns (q : SelectQuery) (fmter : Formatter) (b : List Char) : List Char :=
  let start := b.length
  let b := b ++ q.baseColsText fmter
  let bs := q.forEachHasOneJoin (hasOneColsStep q fmter) (b, start)
  trimCS bs.1

/-- The column list as a standalone segment. -/
def columnsSeg (q : SelectQuery) (fmter : Formatter) : List Char :=
  trimCS ((q.hasOneClosure.foldl (fun bs j => hasOneColsStep q fmter j bs)
    (q.baseColsText fmter, 0)).1)

/-- Modelled from the spec: the FROM clause is emitted when a model table
override, an explicit table, or a bound table is present (`hasTables`). -/
def hasTables (q : SelectQuery) : Bool :=
  !q.modelTable.IsZero || !q.tables.isEmpty || q.table.isSome

end SelectQuery

/-- Modelled from the spec: the FROM list — the bound table (aliased, or the
model-table override), then the explicit tables (`appendTablesWithAlias`). -/
def tablesTexts (q : SelectQuery) (fmter : Formatter) : List (List Char) :=
  (match q.table with
   | some t =>
     [if q.modelTable.IsZero then L t.SQLName ++ L " AS " ++ L t.SQLAlias
      else q.modelTable.render fmter]
   | none =>
     if q.modelTable.IsZero then [] else [q.modelTable.render fmter]) ++
  q.tables.map (QueryWithArgs.render fmter)

namespace SelectQuery

/-- `appendTables` (source lines 611-614). -/
def appendTables (q : SelectQuery) (fmter : Formatter) (b : List Char) : List Char :=
  b ++ L " FROM " ++ joinSep (L ", ") (tablesTexts q fmter)

def fromSeg (q : SelectQuery) (fmter : Formatter) : List Char :=
  if q.hasTables then L " FROM " ++ joinSep (L ", ") (tablesTexts q fmter) else []

/-- Modelled from the spec: the CTE clause (`appendWith`) — `WITH` followed by
the comma-separated `name AS (body)` entries and a trailing space. -/
def withSeg (q : SelectQuery) : List Char :=
  if q.withq.isEmpty then []
  else
    L "WITH " ++
      joinSep (L ", ") (q.withq.map (fun p => p.1.data ++ L " AS (" ++ p.2 ++ L ")")) ++ L " "

def appendWith (q : SelectQuery) (b : List Char) : List Char :=
  b ++ q.withSeg

/-- Modelled from the spec: the WHERE clause (`appendWhere`) — the accumulated
conditions joined by their separators (the wherePK and soft-delete handling of
the source's `whereBaseQuery` is out of the modelled scope). -/
def whereSeg (q : SelectQuery) (fmter : Formatter) : List Char :=
  if q.whereList.isEmpty then []
  else L " WHERE " ++ renderWhereFirst fmter q.whereList

def appendWhere (q : SelectQuery) (fmter : Formatter) (b : List Char) : List Char :=
  b ++ q.whereSeg fmter

/-- The GROUP BY clause loop of `appendQuery` (source lines 437-448). -/
def groupSeg (q : SelectQuery) (fmter : Formatter) : List Char :=
  if q.group.isEmpty then []
  else L " GROUP BY " ++ joinSep (L ", ") (q.group.map (QueryWithArgs.render fmter))

/-- The HAVING clause loop of `appendQuery` (source lines 450-463). -/
def havingSeg (q : SelectQuery) (fmter : Formatter) : List Char :=
  if q.having.isEmpty then []
  else
    L " HAVING " ++
      joinSep (L " AND ") (q.having.map (fun f => L "(" ++ f.render fmter ++ L ")"))

def orderSeg (q : SelectQuery) (fmter : Formatter) : List Char :=
  if q.order.isEmpty then []
  else L " ORDER BY " ++ joinSep (L ", ") (q.order.map (QueryWithArgs.render fmter))

/-- `appendOrder` (source lines 616-633). -/
def appendOrder (q : SelectQuery) (fmter : Formatter) (b : List Char) : List Char :=
  if q.order.isEmpty then b
  else b ++ L " ORDER BY " ++ joinSep (L ", ") (q.order.map (QueryWithArgs.render fmter))

/-- The LIMIT clause (source lines 471-474): emitted only for a nonzero stored
limit, the value printed in decimal. -/
def limitSeg (q : SelectQuery) : List Char :=
  if q.limit ≠ 0 then L " LIMIT " ++ (toString q.limit).data else []

/-- The OFFSET clause (source lines 476-479). -/
def offsetSeg (q : SelectQuery) : List Char :=
  if q.offset ≠ 0 then L " OFFSET " ++ (toString q.offset).data else []

/-- The FOR locking clause (source lines 481-487). -/
def forSeg (q : SelectQuery) (fmter : Formatter) : List Char :=
  if !q.selFor.IsZero then L " FOR " ++ q.selFor.render fmter else []

end SelectQuery

def renderOnRest (fmter : Formatter) : List QueryWithSep → List Char
  | [] => []
  | o :: rest =>
    o.Sep.data ++ (L "(" ++ QueryWithArgs.render fmter o.toQueryWithArgs ++ L ")") ++
      renderOnRest fmter rest

def renderOnFirst (fmter : Formatter) : List QueryWithSep → List Char
  | [] => []
  | o :: rest =>
    (L "(" ++ QueryWithArgs.render fmter o.toQueryWithArgs ++ L ")") ++ renderOnRest fmter rest

/-- The text one explicit join contributes (`joinQuery.AppendQuery`, source
lines 794-819): a space, the join fragment, and the parenthesized ON
conditions joined by their separators. -/
def joinText (j : JoinQuery) (fmter : Formatter) : List Char :=
  L " " ++ QueryWithArgs.render fmter j.join ++
    (if j.onConds.isEmpty then [] else L " ON " ++ renderOnFirst fmter j.onConds)

def JoinQuery.AppendQuery (j : JoinQuery) (fmter : Formatter) (b : List Char) : List Char :=
  b ++ joinText j fmter

namespace SelectQuery

/-- The explicit-join list segment (the loop at source lines 425-430). -/
def joinsSeg (q : SelectQuery) (fmter : Formatter) : List Char :=
  q.joins.foldl (fun b j => b ++ joinText j fmter) []

/-- The implicit to-one join segment (the `forEachHasOneJoin` callback at
source lines 417-423): a space and the join SQL per visited join. -/
def hasOneJoinSeg (q : SelectQuery) : List Char :=
  q.hasOneClosure.foldl (fun b j => b ++ (L " " ++ j.joinSQL.data)) []

def unionOpen (q : SelectQuery) : List Char :=
  if q.union.isEmpty then [] else L "("

end SelectQuery

/-- The DISTINCT section of `appendQuery` (source lines 385-399): `DISTINCT
ON (...)` when distinct expressions were added, `DISTINCT` when distinct mode
was enabled with no expressions, nothing otherwise. -/
def distinctText (q : SelectQuery) (fmter : Formatter) : List Char :=
  match q.distinctOn with
  | some l =>
    if l.isEmpty then L "DISTINCT "
    else L "DISTINCT ON (" ++ joinSep (L ", ") (l.map (QueryWithArgs.render fmter)) ++ L ") "
  | none => []

/-- The set-operation tail loop (source lines 490-502): each entry appends its
expression and the parenthesized sub-render, propagating a sub-render error. -/
def unionAppend : List (String × RenderResult) → List Char → RenderResult
  | [], b => .ok b
  | (expr, sub) :: rest, b =>
    match sub with
    | .error e => .error e
    | .ok s => unionAppend rest (b ++ (expr.data ++ L "(" ++ s ++ L ")"))

namespace SelectQuery

/-- The set-operation tail as a standalone segment (closing parenthesis of the
primary statement followed by each tail entry). -/
def unionTailSeg (q : SelectQuery) : List Char :=
  if q.union.isEmpty then []
  else
    L ")" ++ q.union.foldl
      (fun b p => b ++ (p.1.data ++ L "(" ++ (p.2.toOption.getD []) ++ L ")")) []

/-- `appendQuery` (source lines 362-509): the renderer, parameterized by the
count mode. -/
def appendQuery (q : SelectQuery) (fmter : Formatter) (b : List Char) (count : Bool) :
    RenderResult :=
  match q.err with
  | some e => .error e
  | none =>
    let cteCount := count && (!q.group.isEmpty || q.distinctOn.isSome)
    let b := if cteCount then b ++ L "WITH _count_wrapper AS (" else b
    let b := if !q.union.isEmpty then b ++ L "(" else b
    let b := q.appendWith b
    let b := b ++ L "SELECT " ++ distinctText q fmter
    let b := if count && !cteCount then b ++ L "count(*)" else q.appendColumns fmter b
    let b := if q.hasTables then q.appendTables fmter b else b
    let b := q.forEachHasOneJoin (fun j bb => bb ++ (L " " ++ j.joinSQL.data)) b
    let b := q.joins.foldl (fun bb j => JoinQuery.AppendQuery j fmter bb) b
    let b := q.appendWhere fmter b
    let b := b ++ q.groupSeg fmter
    let b := b ++ q.havingSeg fmter
    let b :=
      if count then b
      else
        let b := q.appendOrder fmter b
        let b := b ++ q.limitSeg
        let b := b ++ q.offsetSeg
        b ++ q.forSeg fmter
    let tail : RenderResult :=
      if q.union.isEmpty then .ok b else unionAppend q.union (b ++ L ")")
    match tail with
    | .error e => .error e
    | .ok b2 => .ok (if cteCount then b2 ++ L ") SELECT count(*) FROM _count_wrapper" else b2)

/-- `AppendQuery` (source lines 358-360); `formatterWithModel` only associates
the model for placeholder resolution and is transparent in this model. -/
def AppendQuery (q : SelectQuery) (fmter : Formatter) (b : List Char) : RenderResult :=
  q.appendQuery fmter b false

/-- The render `Count` performs (source lines 728-745): the count-mode render
from an empty buffer. -/
def countSQL (q : SelectQuery) (fmter : Formatter) : RenderResult :=
  q.appendQuery fmter [] true

end SelectQuery

theorem colsFold_shift (q : SelectQuery) (fmter : Formatter) (l : List join)
    (p s : List Char) (k : Nat) :
    l.foldl (fun bs j => SelectQuery.hasOneColsStep q fmter j bs) (p ++ s, p.length + k) =
      (p ++ (l.foldl (fun bs j => SelectQuery.hasOneColsStep q fmter j bs) (s, k)).1,
        p.length + (l.foldl (fun bs j => SelectQuery.hasOneColsStep q fmter j bs) (s, k)).2) := by
  induction l generalizing s k with
  | nil => rfl
  | cons j js ih =>
    simp only [List.foldl_cons, SelectQuery.hasOneColsStep]
    by_cases h : s.length = k
    · have hcond : ¬((p ++ s).length ≠ p.length + k) := by
        simp [List.length_append, h]
      have hcond2 : ¬(s.length ≠ k) := by simp [h]
      rw [if_neg hcond, if_neg hcond2, List.append_assoc]
      exact ih (s ++ hasOneColsBlock q fmter j) k
    · have hcond : (p ++ s).length ≠ p.length + k := by
        simp only [List.length_append]
        omega
      rw [if_pos hcond, if_pos h]
      have e1 : (p ++ s) ++ L ", " ++ hasOneColsBlock q fmter j
          = p ++ ((s ++ L ", ") ++ hasOneColsBlock q fmter j) := by
        simp [List.append_assoc]
      have e2 : ((p ++ s) ++ L ", ").length = p.length + (s ++ L ", ").length := by
        simp [List.length_append]
      rw [e1, e2]
      exact ih ((s ++ L ", ") ++ hasOneColsBlock q fmter j) (s ++ L ", ").length

theorem appendColumns_eq (q : SelectQuery) (fmter : Formatter) (b : List Char)
    (hb : GoodTail b) :
    q.appendColumns fmter b = b ++ q.columnsSeg fmter := by
  unfold SelectQuery.appendColumns SelectQuery.columnsSeg
  dsimp only
  rw [SelectQuery.forEachHasOneJoin_eq]
  have hinit : ((b ++ q.baseColsText fmter, b.length) : List Char × Nat)
      = (b ++ q.baseColsText fmter, b.length + 0) := rfl
  rw [hinit, colsFold_shift]
  exact trimCS_append b _ hb

theorem appendOrder_eq (q : SelectQuery) (fmter : Formatter) (b : List Char) :
    q.appendOrder fmter b = b ++ q.orderSeg fmter := by
  unfold SelectQuery.appendOrder SelectQuery.orderSeg
  by_cases h : q.order.isEmpty <;> simp [h, List.append_assoc]

theorem forEach_joinSQL_eq (q : SelectQuery) (b : List Char) :
    q.forEachHasOneJoin (fun j bb => bb ++ (L " " ++ j.joinSQL.data)) b
      = b ++ q.hasOneJoinSeg := by
  rw [SelectQuery.forEachHasOneJoin_eq]
  unfold SelectQuery.hasOneJoinSeg
  have h := foldl_apnd (fun j : join => L " " ++ j.joinSQL.data) q.hasOneClosure b []
  simpa using h

theorem joins_fold_eq (q : SelectQuery) (fmter : Formatter) (b : List Char) :
    q.joins.foldl (fun bb j => JoinQuery.AppendQuery j fmter bb) b
      = b ++ q.joinsSeg fmter := by
  unfold SelectQuery.joinsSeg
  simp only [JoinQuery.AppendQuery]
  have h := foldl_apnd (fun j : JoinQuery => joinText j fmter) q.joins b []
  simpa using h

theorem toOption_ok {ε α : Type} (a : α) : (Except.ok a : Except ε α).toOption = some a := rfl

theorem unionAppend_eq (us : List (String × RenderResult)) (b : List Char)
    (hu : ∀ p ∈ us, ∃ s, p.2 = Except.ok s) :
    unionAppend us b = .ok (b ++ us.foldl
      (fun c p => c ++ (p.1.data ++ L "(" ++ (p.2.toOption.getD []) ++ L ")")) []) := by
  induction us generalizing b with
  | nil => simp [unionAppend]
  | cons p rest ih =>
    obtain ⟨s, hs⟩ := hu p (List.mem_cons_self p rest)
    obtain ⟨expr, sub⟩ := p
    simp only at hs
    subst hs
    simp only [unionAppend]
    rw [ih _ (fun p hp => hu p (List.mem_cons_of_mem _ hp))]
    have hstep : rest.foldl
        (fun c p => c ++ (p.1.data ++ L "(" ++ (p.2.toOption.getD []) ++ L ")"))
        (expr.data ++ L "(" ++ s ++ L ")")
        = (expr.data ++ L "(" ++ s ++ L ")") ++ rest.foldl
          (fun c p => c ++ (p.1.data ++ L "(" ++ (p.2.toOption.getD []) ++ L ")")) [] := by
      have h := foldl_apnd
        (fun p : String × RenderResult => p.1.data ++ L "(" ++ (p.2.toOption.getD []) ++ L ")")
        rest (expr.data ++ L "(" ++ s ++ L ")") []
      simpa using h
    simp only [List.foldl_cons, List.nil_append, toOption_ok, Option.getD_some]
    rw [hstep]
    simp [List.append_assoc]

theorem goodTail_of_suffix (x y : List Char) (c : Char) (hc : c ≠ ',') :
    GoodTail (x ++ (y ++ [c, ' '])) := by
  constructor
  · simp [List.reverse_append]
  · simp only [List.reverse_append]
    simp [List.take, hc]

theorem goodTail_sel (x : List Char) (q : SelectQuery) (fmter : Formatter) :
    GoodTail (x ++ L "SELECT " ++ distinctText q fmter) := by
  cases hd : q.distinctOn with
  | none =>
    have hz : distinctText q fmter = [] := by simp [distinctText, hd]
    rw [hz, List.append_nil]
    have e1 : L "SELECT " = L "SELEC" ++ ['T', ' '] := rfl
    rw [e1]
    exact goodTail_of_suffix x (L "SELEC") 'T' (by decide)
  | some l =>
    by_cases hl : l.isEmpty
    · have hz : distinctText q fmter = L "DISTINCT " := by simp [distinctText, hd, hl]
      rw [hz]
      have e2 : L "DISTINCT " = L "DISTINC" ++ ['T', ' '] := rfl
      rw [e2]
      exact goodTail_of_suffix (x ++ L "SELECT ") (L "DISTINC") 'T' (by decide)
    · have hz : distinctText q fmter =
          (L "DISTINCT ON (" ++ joinSep (L ", ") (l.map (QueryWithArgs.render fmter))) ++ L ") " := by
        simp [distinctText, hd, hl, List.append_assoc]
      rw [hz]
      exact goodTail_of_suffix (x ++ L "SELECT ")
        (L "DISTINCT ON (" ++ joinSep (L ", ") (l.map (QueryWithArgs.render fmter))) ')'
        (by decide)

theorem unionOpen_if_eq (q : SelectQuery) (b : List Char) :
    (if !q.union.isEmpty then b ++ L "(" else b) = b ++ q.unionOpen := by
  unfold SelectQuery.unionOpen
  by_cases h : q.union.isEmpty <;> simp [h]

theorem tables_if_eq (q : SelectQuery) (fmter : Formatter) (b : List Char) :
    (if q.hasTables then q.appendTables fmter b else b) = b ++ q.fromSeg fmter := by
  unfold SelectQuery.appendTables SelectQuery.fromSeg
  by_cases h : q.hasTables <;> simp [h, List.append_assoc]

theorem appendQuery_false_eq (q : SelectQuery) (fmter : Formatter) (b : List Char)
    (he : q.err = none) (hu : ∀ p ∈ q.union, ∃ s, p.2 = Except.ok s) :
    q.appendQuery fmter b false =
      .ok (b ++ q.unionOpen ++ q.withSeg ++ L "SELECT " ++ distinctText q fmter ++
        q.columnsSeg fmter ++ q.fromSeg fmter ++ q.hasOneJoinSeg ++ q.joinsSeg fmter ++
        q.whereSeg fmter ++ q.groupSeg fmter ++ q.havingSeg fmter ++ q.orderSeg fmter ++
        q.limitSeg ++ q.offsetSeg ++ q.forSeg fmter ++ q.unionTailSeg) := by
  unfold SelectQuery.appendQuery
  rw [he]
  dsimp only
  rw [unionOpen_if_eq]
  simp only [SelectQuery.appendWith, SelectQuery.appendWhere]
  rw [appendColumns_eq q fmter _ (goodTail_sel _ q fmter)]
  rw [tables_if_eq]
  rw [forEach_joinSQL_eq, joins_fold_eq, appendOrder_eq]
  by_cases hU : q.union.isEmpty = true
  · rw [if_pos hU]
    have hopen : q.unionOpen = [] := by simp [SelectQuery.unionOpen, hU]
    have htail : q.unionTailSeg = [] := by simp [SelectQuery.unionTailSeg, hU]
    simp [hopen, htail, List.append_assoc]
  · rw [if_neg hU]
    rw [unionAppend_eq _ _ hu]
    have hopen : q.unionOpen = L "(" := by simp [SelectQuery.unionOpen, hU]
    have htail : q.unionTailSeg = L ")" ++ q.union.foldl
        (fun b p => b ++ (p.1.data ++ L "(" ++ (p.2.toOption.getD []) ++ L ")")) [] := by
      simp [SelectQuery.unionTailSeg, hU]
    simp [hopen, htail, List.append_assoc]

theorem appendQuery_true_noCte_eq (q : SelectQuery) (fmter : Formatter) (b : List Char)
    (he : q.err = none) (hg : q.group = []) (hd : q.distinctOn = none)
    (hu : ∀ p ∈ q.union, ∃ s, p.2 = Except.ok s) :
    q.appendQuery fmter b true =
      .ok (b ++ q.unionOpen ++ q.withSeg ++ L "SELECT " ++ distinctText q fmter ++
        L "count(*)" ++ q.fromSeg fmter ++ q.hasOneJoinSeg ++ q.joinsSeg fmter ++
        q.whereSeg fmter ++ q.groupSeg fmter ++ q.havingSeg fmter ++ q.unionTailSeg) := by
  unfold SelectQuery.appendQuery
  rw [he]
  dsimp only
  simp only [hg, hd, List.isEmpty_nil, Bool.not_true, Option.isSome_none, Bool.or_self,
    Bool.and_false, Bool.and_true, Bool.not_false, Bool.true_and]
  rw [unionOpen_if_eq]
  simp only [SelectQuery.appendWith, SelectQuery.appendWhere]
  rw [tables_if_eq]
  rw [forEach_joinSQL_eq, joins_fold_eq]
  by_cases hU : q.union.isEmpty = true
  · rw [if_pos hU]
    have hopen : q.unionOpen = [] := by simp [SelectQuery.unionOpen, hU]
    have htail : q.unionTailSeg = [] := by simp [SelectQuery.unionTailSeg, hU]
    simp [hopen, htail, List.append_assoc]
  · rw [if_neg hU]
    rw [unionAppend_eq _ _ hu]
    have hopen : q.unionOpen = L "(" := by simp [SelectQuery.unionOpen, hU]
    have htail : q.unionTailSeg = L ")" ++ q.union.foldl
        (fun b p => b ++ (p.1.data ++ L "(" ++ (p.2.toOption.getD []) ++ L ")")) [] := by
      simp [SelectQuery.unionTailSeg, hU]
    simp [hopen, htail, List.append_assoc]

theorem appendQuery_true_cte_eq (q : SelectQuery) (fmter : Formatter) (b : List Char)
    (he : q.err = none) (hc : (!q.group.isEmpty || q.distinctOn.isSome) = true)
    (hu : ∀ p ∈ q.union, ∃ s, p.2 = Except.ok s) :
    q.appendQuery fmter b true =
      .ok (b ++ L "WITH _count_wrapper AS (" ++ q.unionOpen ++ q.withSeg ++ L "SELECT " ++
        distinctText q fmter ++ q.columnsSeg fmter ++ q.fromSeg fmter ++ q.hasOneJoinSeg ++
        q.joinsSeg fmter ++ q.whereSeg fmter ++ q.groupSeg fmter ++ q.havingSeg fmter ++
        q.unionTailSeg ++ L ") SELECT count(*) FROM _count_wrapper") := by
  unfold SelectQuery.appendQuery
  rw [he]
  dsimp only
  simp only [hc, Bool.and_true, Bool.not_true, Bool.and_false, if_true]
  rw [unionOpen_if_eq]
  simp only [SelectQuery.appendWith, SelectQuery.appendWhere]
  rw [appendColumns_eq q fmter _ (goodTail_sel _ q fmter)]
  rw [tables_if_eq]
  rw [forEach_joinSQL_eq, joins_fold_eq]
  by_cases hU : q.union.isEmpty = true
  · rw [if_pos hU]
    have hopen : q.unionOpen = [] := by simp [SelectQuery.unionOpen, hU]
    have htail : q.unionTailSeg = [] := by simp [SelectQuery.unionTailSeg, hU]
    simp [hopen, htail, List.append_assoc]
  · rw [if_neg hU]
    rw [unionAppend_eq _ _ hu]
    have hopen : q.unionOpen = L "(" := by simp [SelectQuery.unionOpen, hU]
    have htail : q.unionTailSeg = L ")" ++ q.union.foldl
        (fun b p => b ++ (p.1.data ++ L "(" ++ (p.2.toOption.getD []) ++ L ")")) [] := by
      simp [SelectQuery.unionTailSeg, hU]
    simp [hopen, htail, List.append_assoc]

/-- An observable step of a top-level `Scan` operation. -/
inductive Event where
  | beforeHook
  | render (sql : List Char)
  | exec
  | relQuery (name : String)
  | afterHook
  deriving DecidableEq

/-- The resolved destination model of `Scan` (`getModel`): either a plain
destination, or one backed by a table model (the `model.(tableModel)` check). -/
inductive ScanModel where
  | plain
  | tm (t : TableModel)

/-- `selectJoins` (source lines 339-354): to-one joins recurse into their join
model's joins; any other relation issues its follow-up query (`j.Select`,
whose outcome is the join's `selectErr`); the loop stops at the first error. -/
def selectJoinsRun : List join → List Event × Option Err
  | [] => ([], none)
  | join.mk rt n c sql al tb sub se :: rest =>
    match (if rt.toOne then selectJoinsRun sub else ([Event.relQuery n], se)) with
    | (tr, some e0) => (tr, some e0)
    | (tr, none) => (tr ++ (selectJoinsRun rest).1, (selectJoinsRun rest).2)

/-- The relation names for which `selectJoins` issues follow-up queries: the
non-to-one relations, collected through to-one relations recursively. -/
def issuedNames : List join → List String
  | [] => []
  | join.mk rt n _ _ _ _ sub _ :: rest =>
    if rt.toOne then issuedNames sub ++ issuedNames rest
    else n :: issuedNames rest

theorem selectJoinsRun_events (js : List join) :
    ∀ ev ∈ (selectJoinsRun js).1, ∃ nm, ev = Event.relQuery nm ∧ nm ∈ issuedNames js := by
  induction js using selectJoinsRun.induct with
  | case1 => intro ev hev; simp [selectJoinsRun] at hev
  | case2 rt n c sql al tb sub se rest tr e0 hhead ihsub =>
    intro ev hev
    by_cases hrt : rt.toOne = true
    · rw [dif_pos hrt] at hhead
      simp only [selectJoinsRun, if_pos hrt, hhead] at hev
      have hev2 : ev ∈ (selectJoinsRun sub).1 := by rw [hhead]; exact hev
      obtain ⟨nm, hnm, hmem⟩ := ihsub ev hev2
      exact ⟨nm, hnm, by simp [issuedNames, hrt, List.mem_append, hmem]⟩
    · rw [dif_neg hrt] at hhead
      simp only [Prod.mk.injEq] at hhead
      obtain ⟨htr, hse⟩ := hhead
      simp only [selectJoinsRun, if_neg hrt, hse] at hev
      simp only [List.mem_singleton] at hev
      exact ⟨n, hev, by simp [issuedNames, hrt]⟩
  | case3 rt n c sql al tb sub se rest tr hhead ihsub ihrest =>
    intro ev hev
    by_cases hrt : rt.toOne = true
    · rw [dif_pos hrt] at hhead
      simp only [selectJoinsRun, if_pos hrt, hhead] at hev
      rcases List.mem_append.mp hev with hl | hr
      · have hl2 : ev ∈ (selectJoinsRun sub).1 := by rw [hhead]; exact hl
        obtain ⟨nm, hnm, hmem⟩ := ihsub ev hl2
        exact ⟨nm, hnm, by simp [issuedNames, hrt, List.mem_append, hmem]⟩
      · obtain ⟨nm, hnm, hmem⟩ := ihrest ev hr
        exact ⟨nm, hnm, by simp [issuedNames, hrt, List.mem_append, hmem]⟩
    · rw [dif_neg hrt] at hhead
      simp only [Prod.mk.injEq] at hhead
      obtain ⟨htr, hse⟩ := hhead
      simp only [selectJoinsRun, if_neg hrt, hse] at hev
      rcases List.mem_append.mp hev with hl | hr
      · simp only [List.mem_singleton] at hl
        exact ⟨n, hl, by simp [issuedNames, hrt]⟩
      · obtain ⟨nm, hnm, hmem⟩ := ihrest ev hr
        exact ⟨nm, hnm, by simp [issuedNames, hrt, hmem]⟩

theorem selectJoinsRun_ok (js : List join) :
    (selectJoinsRun js).2 = none →
    (selectJoinsRun js).1 = (issuedNames js).map Event.relQuery := by
  induction js using selectJoinsRun.induct with
  | case1 => intro _; simp [selectJoinsRun, issuedNames]
  | case2 rt n c sql al tb sub se rest tr e0 hhead ihsub =>
    intro hok
    by_cases hrt : rt.toOne = true
    · rw [dif_pos hrt] at hhead
      simp [selectJoinsRun, if_pos hrt, hhead] at hok
    · rw [dif_neg hrt] at hhead
      simp only [Prod.mk.injEq] at hhead
      obtain ⟨htr, hse⟩ := hhead
      simp [selectJoinsRun, if_neg hrt, hse] at hok
  | case3 rt n c sql al tb sub se rest tr hhead ihsub ihrest =>
    intro hok
    by_cases hrt : rt.toOne = true
    · rw [dif_pos hrt] at hhead
      have h2 : (selectJoinsRun rest).2 = none := by
        simpa [selectJoinsRun, if_pos hrt, hhead] using hok
      have hsub : (selectJoinsRun sub).2 = none := by rw [hhead]
      have htr : (selectJoinsRun sub).1 = tr := by rw [hhead]
      have hmap := ihsub hsub
      rw [htr] at hmap
      simp [selectJoinsRun, if_pos hrt, hhead, issuedNames, hrt, ihrest h2, hmap]
    · rw [dif_neg hrt] at hhead
      simp only [Prod.mk.injEq] at hhead
      obtain ⟨htr, hse⟩ := hhead
      have h2 : (selectJoinsRun rest).2 = none := by
        simpa [selectJoinsRun, if_neg hrt, hse] using hok
      simp [selectJoinsRun, if_neg hrt, hse, issuedNames, hrt, ihrest h2]

namespace SelectQuery

/-- The before-hook step of `Scan` (source lines 675-679 with
`beforeSelectHook`, lines 710-717): no event when no table is bound or the
entity type lacks the capability; otherwise one hook invocation with the
hook's result. -/
def beforeHookStep (q : SelectQuery) : List Event × Option Err :=
  match q.table with
  | none => ([], none)
  | some t =>
    match t.beforeSelect with
    | none => ([], none)
    | some r => ([Event.beforeHook], r)

/-- The after-hook step of `Scan` (source lines 701-705 with
`afterSelectHook`, lines 719-726). -/
def afterHookStep (q : SelectQuery) : List Event × Option Err :=
  match q.table with
  | none => ([], none)
  | some t =>
    match t.afterSelect with
    | none => ([], none)
    | some r => ([Event.afterHook], r)

end SelectQuery

/-- The outcome of `getModel` in `Scan`. -/
abbrev ModelResult := Except Err ScanModel

/-- The outcome of the driver-level scan: the number of scanned rows, or an
error. -/
abbrev RowsResult := Except Err Nat

namespace SelectQuery

/-- The follow-up step of `Scan` (source lines 693-699): only when the scanned
row count is positive and the destination model is table-model backed does
`selectJoins` run. -/
def joinStep (m : ScanModel) (n : Nat) : List Event × Option Err :=
  if 0 < n then
    match m with
    | .tm t => selectJoinsRun t.joins
    | .plain => ([], none)
  else ([], none)

/-- `Scan` (source lines 663-708).  The `getModel` outcome and the driver's
scan outcome (the scanned row count) are modelled from the spec as environment
inputs `gm` and `scanRes`; the returned trace lists the observable steps in
order (`SetCap` at lines 669-673 has no observable effect here). -/
def Scan (q : SelectQuery) (fmter : Formatter) (gm : ModelResult)
    (scanRes : RowsResult) : List Event × Option Err :=
  match gm with
  | .error e => ([], some e)
  | .ok m =>
    match q.beforeHookStep with
    | (tr1, some e) => (tr1, some e)
    | (tr1, none) =>
      match q.appendQuery fmter [] false with
      | .error e => (tr1, some e)
      | .ok sql =>
        match scanRes with
        | .error e => (tr1 ++ [Event.render sql, Event.exec], some e)
        | .ok n =>
          match joinStep m n with
          | (tr3, some e) => (tr1 ++ [Event.render sql, Event.exec] ++ tr3, some e)
          | (tr3, none) =>
            match q.afterHookStep with
            | (tr4, r4) => (tr1 ++ [Event.render sql, Event.exec] ++ tr3 ++ tr4, r4)

end SelectQuery

namespace SelectQuery

/-- Every builder field except the error slot, for unchanged-state claims. -/
def fieldsSansErr (q : SelectQuery) :=
  (q.table, q.tableModel, q.modelTable, q.withq, q.tables, q.columns, q.whereList,
    q.distinctOn, q.joins, q.group, q.having, q.order, q.limit, q.offset, q.selFor, q.union)

/-- Every builder field except the WHERE list, for the `WhereGroup` frame
claim. -/
def fieldsSansWhere (q : SelectQuery) :=
  (q.err, q.table, q.tableModel, q.modelTable, q.withq, q.tables, q.columns,
    q.distinctOn, q.joins, q.group, q.having, q.order, q.limit, q.offset, q.selFor, q.union)

/-- Modelled from the spec: bind an entity model (`Model`/`setTableModel`) —
records the table model and its table metadata on the builder. -/
def Model (q : SelectQuery) (m : TableModel) : SelectQuery :=
  { q with tableModel := some m, table := some m.table }

end SelectQuery

theorem appendQuery_err (q : SelectQuery) (e : Err) (fmter : Formatter) (b : List Char)
    (count : Bool) (he : q.err = some e) :
    q.appendQuery fmter b count = .error e := by
  unfold SelectQuery.appendQuery
  rw [he]

/-- C3: calling `JoinOn` or `JoinOnOr` on a builder with no joins returns the
builder (the fluent chain is not interrupted, all other fields unchanged) with
the error `"bun: query has no joins"` recorded, and every subsequent render —
`appendQuery` for any formatter, buffer and count mode, hence `AppendQuery`,
`Rows`, `Exec`, `Scan` and `Count`, which all call it — returns that stored
error without emitting any SQL bytes. -/
theorem c3_joinOn_no_joins (q : SelectQuery) (cond cond2 : String)
    (args args2 : List Arg) (h : q.joins = []) :
    ((q.JoinOn cond args).err = some "bun: query has no joins" ∧
      (q.JoinOn cond args).fieldsSansErr = q.fieldsSansErr ∧
      ∀ fmter b count, (q.JoinOn cond args).appendQuery fmter b count
        = .error "bun: query has no joins") ∧
    ((q.JoinOnOr cond2 args2).err = some "bun: query has no joins" ∧
      (q.JoinOnOr cond2 args2).fieldsSansErr = q.fieldsSansErr ∧
      ∀ fmter b count, (q.JoinOnOr cond2 args2).appendQuery fmter b count
        = .error "bun: query has no joins") := by
  have hq : ∀ c a sep, q.joinOn c a sep = { q with err := some "bun: query has no joins" } := by
    intro c a sep
    unfold SelectQuery.joinOn
    rw [h]
    rfl
  refine ⟨⟨?_, ?_, ?_⟩, ?_, ?_, ?_⟩
  · rw [SelectQuery.JoinOn, hq]
  · rw [SelectQuery.JoinOn, hq]; rfl
  · intro fmter b count
    exact appendQuery_err _ _ fmter b count (by rw [SelectQuery.JoinOn, hq])
  · rw [SelectQuery.JoinOnOr, hq]
  · rw [SelectQuery.JoinOnOr, hq]; rfl
  · intro fmter b count
    exact appendQuery_err _ _ fmter b count (by rw [SelectQuery.JoinOnOr, hq])

/-- C4 counterexample: after `JoinOn` on a join-less builder has recorded the
error, a further `Join` call still appends to the join list — so a
configuration operation mutates builder state after an error was recorded,
refuting the claim that every operation checks the error slot first. -/
theorem c4_counterexample :
    (NewSelectQuery.JoinOn "a = b" []).err = some "bun: query has no joins" ∧
    (NewSelectQuery.JoinOn "a = b" []).joins = [] ∧
    (((NewSelectQuery.JoinOn "a = b" []).Join "JOIN x" []).joins).length = 1 :=
  ⟨rfl, rfl, rfl⟩

/-- C4 (amended): configuration operations do not consult the stored error and
mutate builder state regardless (`Join`, `GroupExpr`, `OrderExpr`, `Limit`
shown); the stored error instead pre-empts rendering — `appendQuery` returns
it immediately. -/
theorem c4_amended (q : SelectQuery) (e : Err) (j g o : String) (args : List Arg)
    (n : Int) (he : q.err = some e) :
    (∀ fmter b count, q.appendQuery fmter b count = .error e) ∧
    (q.Join j args).joins = q.joins ++ [⟨SafeQuery j args, []⟩] ∧
    (q.GroupExpr g args).group = q.group ++ [SafeQuery g args] ∧
    (q.OrderExpr o args).order = q.order ++ [SafeQuery o args] ∧
    (q.Limit n).limit = int32 n :=
  ⟨fun fmter b count => appendQuery_err q e fmter b count he, rfl, rfl, rfl, rfl⟩

theorem setErr_of_none (q : SelectQuery) (e : Err) (he : q.err = none) :
    q.setErr e = { q with err := some e } := by
  unfold SelectQuery.setErr
  rw [he]
  rfl

/-- C7: `Relation` on a builder whose bound model is nil records the nil-model
error `"bun: Model(nil)"`; `Relation` with a name matching no relation of the
model's metadata records `<table> does not have relation="<name>"`; in both
cases every other builder field is unchanged (the same builder is returned)
and the failure surfaces only at render, which returns the stored error. -/
theorem c7_relation_errors (q : SelectQuery) (name : String) (he : q.err = none) :
    (q.tableModel = none →
      (q.Relation name).err = some errNilModel ∧
      (q.Relation name).fieldsSansErr = q.fieldsSansErr ∧
      ∀ fmter b count, (q.Relation name).appendQuery fmter b count
        = .error errNilModel) ∧
    (∀ tm, q.tableModel = some tm → lookupRel tm name = none →
      (q.Relation name).err
          = some (q.tableString ++ " does not have relation=\"" ++ name ++ "\"") ∧
      (q.Relation name).fieldsSansErr = q.fieldsSansErr ∧
      ∀ fmter b count, (q.Relation name).appendQuery fmter b count
        = .error (q.tableString ++ " does not have relation=\"" ++ name ++ "\"")) := by
  constructor
  · intro hm
    have hrel : q.Relation name = { q with err := some errNilModel } := by
      unfold SelectQuery.Relation
      rw [hm]
      dsimp only
      rw [setErr_of_none q _ he]
      simp [hm]
    refine ⟨by rw [hrel], by rw [hrel]; rfl, ?_⟩
    intro fmter b count
    exact appendQuery_err _ _ fmter b count (by rw [hrel])
  · intro tm hm hlk
    have hrel : q.Relation name =
        { q with err := some (q.tableString ++ " does not have relation=\"" ++ name ++ "\"") } := by
      unfold SelectQuery.Relation
      rw [hm]
      dsimp only
      rw [hlk, setErr_of_none q _ he]
      simp [hm]
    refine ⟨by rw [hrel], by rw [hrel]; rfl, ?_⟩
    intro fmter b count
    exact appendQuery_err _ _ fmter b count (by rw [hrel])

/-- C8: `WhereGroup sep fn` runs `fn` on a copy of the builder whose WHERE
list is empty, restores the parent's WHERE list afterwards, appends the
conditions `fn` accumulated as one grouped condition with separator `sep`
(nothing when `fn` accumulated none), and the save/restore leaves every other
builder field exactly as `fn` left it. -/
theorem c8_whereGroup_frame (q : SelectQuery) (sep : String)
    (fn : SelectQuery → SelectQuery) :
    ({ q with whereList := [] } : SelectQuery).whereList = [] ∧
    (q.WhereGroup sep fn).whereList
        = q.whereList ++
          (if (fn { q with whereList := [] }).whereList.isEmpty then []
            else [WhereItem.group sep (fn { q with whereList := [] }).whereList]) ∧
    (q.WhereGroup sep fn).fieldsSansWhere
        = (fn { q with whereList := [] }).fieldsSansWhere := by
  refine ⟨rfl, ?_, ?_⟩
  · unfold SelectQuery.WhereGroup SelectQuery.addWhereGroup
    dsimp only
    by_cases hw : (fn { q with whereList := [] }).whereList.isEmpty <;>
      simp [hw]
  · unfold SelectQuery.WhereGroup SelectQuery.addWhereGroup SelectQuery.fieldsSansWhere
    dsimp only
    by_cases hw : (fn { q with whereList := [] }).whereList.isEmpty <;>
      simp [hw]

/-- C9: `Order` handles each argument string as follows — the empty string is
skipped; a string with no space becomes one unsafe identifier; a string whose
suffix after the first space equals, uppercased, one of ASC, DESC,
ASC NULLS FIRST, DESC NULLS FIRST, ASC NULLS LAST, DESC NULLS LAST becomes the
safe `"? ?"` fragment pairing the quoted field before the space with the sort
direction verbatim; any other suffix appends the whole string as one unsafe
identifier. -/
theorem c9_order_parsing (q : SelectQuery) (s : String) :
    (s = "" → q.Order [s] = q) ∧
    (s ≠ "" → spaceIdx s = none →
      q.Order [s] = { q with order := q.order ++ [UnsafeIdent s] }) ∧
    (∀ i, spaceIdx s = some i →
      (toUpperStr ⟨s.data.drop (i + 1)⟩ ∈ sortDirections →
        q.Order [s] = { q with order := q.order ++
          [SafeQuery "? ?" [Arg.ident ⟨s.data.take i⟩, Arg.safe ⟨s.data.drop (i + 1)⟩]] }) ∧
      (toUpperStr ⟨s.data.drop (i + 1)⟩ ∉ sortDirections →
        q.Order [s] = { q with order := q.order ++ [UnsafeIdent s] })) := by
  refine ⟨?_, ?_, ?_⟩
  · intro h
    simp [SelectQuery.Order, SelectQuery.orderStep, h]
  · intro h hsp
    simp [SelectQuery.Order, SelectQuery.orderStep, h, hsp]
  · intro i hsp
    have hs : s ≠ "" := by
      intro hcon
      rw [hcon] at hsp
      simp [spaceIdx] at hsp
    constructor
    · intro hmem
      simp [SelectQuery.Order, SelectQuery.orderStep, hs, hsp, hmem]
    · intro hmem
      simp [SelectQuery.Order, SelectQuery.orderStep, hs, hsp, hmem]

/-- C1: for every builder with no recorded error (and set-operation
sub-renders that succeed), the non-count render emits exactly, in order: the
opening parenthesis of the primary statement when set operations are present,
the CTE WITH clauses, `SELECT` with the optional DISTINCT section, the column
list (explicit columns, else all metadata fields, else `*`, followed by one
relation-prefix-aliased column block per eager to-one relation), the FROM
list, the implicit to-one relation joins (declaration order, recursively —
`hasOneClosure`), the explicit joins, WHERE, GROUP BY, HAVING, ORDER BY,
LIMIT, OFFSET, the FOR clause, and the set-operation tail after the closing
parenthesis. -/
theorem c1_render_clause_order (q : SelectQuery) (fmter : Formatter) (b : List Char)
    (he : q.err = none) (hu : ∀ p ∈ q.union, ∃ s, p.2 = Except.ok s) :
    q.appendQuery fmter b false =
      .ok (b ++ q.unionOpen ++ q.withSeg ++ L "SELECT " ++ distinctText q fmter ++
        q.columnsSeg fmter ++ q.fromSeg fmter ++ q.hasOneJoinSeg ++ q.joinsSeg fmter ++
        q.whereSeg fmter ++ q.groupSeg fmter ++ q.havingSeg fmter ++ q.orderSeg fmter ++
        q.limitSeg ++ q.offsetSeg ++ q.forSeg fmter ++ q.unionTailSeg) :=
  appendQuery_false_eq q fmter b he hu

/-- C2: the counting render used by `Count` agrees with the plain render on
every clause up to HAVING but replaces the whole column list by `count(*)` and
omits ORDER BY, LIMIT, OFFSET and the FOR clause; when the query has a GROUP
BY or is DISTINCT it instead wraps the statement (with its own column list,
and without the ORDER BY/LIMIT/OFFSET/FOR tail) as
`WITH _count_wrapper AS (...) SELECT count(*) FROM _count_wrapper`, so the
count reflects grouped rows, not base rows. -/
theorem c2_count_render (q : SelectQuery) (fmter : Formatter)
    (he : q.err = none) (hu : ∀ p ∈ q.union, ∃ s, p.2 = Except.ok s) :
    (q.appendQuery fmter [] false =
      .ok (q.unionOpen ++ q.withSeg ++ L "SELECT " ++ distinctText q fmter ++
        q.columnsSeg fmter ++ q.fromSeg fmter ++ q.hasOneJoinSeg ++ q.joinsSeg fmter ++
        q.whereSeg fmter ++ q.groupSeg fmter ++ q.havingSeg fmter ++ q.orderSeg fmter ++
        q.limitSeg ++ q.offsetSeg ++ q.forSeg fmter ++ q.unionTailSeg)) ∧
    (q.group = [] → q.distinctOn = none →
      q.countSQL fmter =
        .ok (q.unionOpen ++ q.withSeg ++ L "SELECT " ++ distinctText q fmter ++
          L "count(*)" ++ q.fromSeg fmter ++ q.hasOneJoinSeg ++ q.joinsSeg fmter ++
          q.whereSeg fmter ++ q.groupSeg fmter ++ q.havingSeg fmter ++ q.unionTailSeg)) ∧
    ((!q.group.isEmpty || q.distinctOn.isSome) = true →
      q.countSQL fmter =
        .ok (L "WITH _count_wrapper AS (" ++ q.unionOpen ++ q.withSeg ++ L "SELECT " ++
          distinctText q fmter ++ q.columnsSeg fmter ++ q.fromSeg fmter ++
          q.hasOneJoinSeg ++ q.joinsSeg fmter ++ q.whereSeg fmter ++ q.groupSeg fmter ++
          q.havingSeg fmter ++ q.unionTailSeg ++
          L ") SELECT count(*) FROM _count_wrapper")) := by
  refine ⟨?_, ?_, ?_⟩
  · simpa using appendQuery_false_eq q fmter [] he hu
  · intro hg hd
    simpa [SelectQuery.countSQL] using appendQuery_true_noCte_eq q fmter [] he hg hd hu
  · intro hc
    simpa [SelectQuery.countSQL] using appendQuery_true_cte_eq q fmter [] he hc hu

/-- C10: in a non-count render the LIMIT clause appears exactly when the
stored limit is nonzero and the OFFSET clause exactly when the stored offset
is nonzero — `Limit 0` and `Offset 0` emit nothing — and a negative value such
as `Limit (-1)` is stored as `-1` and rendered literally as ` LIMIT -1`. -/
theorem c10_limit_offset (q : SelectQuery) (fmter : Formatter) (b : List Char)
    (he : q.err = none) (hu : ∀ p ∈ q.union, ∃ s, p.2 = Except.ok s) :
    (q.appendQuery fmter b false =
      .ok (b ++ q.unionOpen ++ q.withSeg ++ L "SELECT " ++ distinctText q fmter ++
        q.columnsSeg fmter ++ q.fromSeg fmter ++ q.hasOneJoinSeg ++ q.joinsSeg fmter ++
        q.whereSeg fmter ++ q.groupSeg fmter ++ q.havingSeg fmter ++ q.orderSeg fmter ++
        q.limitSeg ++ q.offsetSeg ++ q.forSeg fmter ++ q.unionTailSeg)) ∧
    (q.limitSeg = [] ↔ q.limit = 0) ∧
    (q.offsetSeg = [] ↔ q.offset = 0) ∧
    (q.Limit 0).limitSeg = [] ∧
    (q.Offset 0).offsetSeg = [] ∧
    (q.Limit (-1)).limit = -1 ∧
    (q.Limit (-1)).limitSeg = L " LIMIT -1" := by
  have hL : L " LIMIT " ≠ [] := by decide
  have hO : L " OFFSET " ≠ [] := by decide
  refine ⟨appendQuery_false_eq q fmter b he hu, ?_, ?_, ?_, ?_, ?_, ?_⟩
  · by_cases hl : q.limit = 0
    · simp [SelectQuery.limitSeg, hl]
    · simp [SelectQuery.limitSeg, hl, List.append_eq_nil, hL]
  · by_cases ho : q.offset = 0
    · simp [SelectQuery.offsetSeg, ho]
    · simp [SelectQuery.offsetSeg, ho, List.append_eq_nil, hO]
  · have hlim : (q.Limit 0).limit = 0 := by
      simp [SelectQuery.Limit]
      decide
    unfold SelectQuery.limitSeg
    rw [hlim]
    decide
  · have hoff : (q.Offset 0).offset = 0 := by
      simp [SelectQuery.Offset]
      decide
    unfold SelectQuery.offsetSeg
    rw [hoff]
    decide
  · simp [SelectQuery.Limit]
    decide
  · have hlim : (q.Limit (-1)).limit = -1 := by
      simp [SelectQuery.Limit]
      decide
    unfold SelectQuery.limitSeg
    rw [hlim]
    decide

theorem beforeHookStep_none (q : SelectQuery) (ht : q.table = none) :
    q.beforeHookStep = ([], none) := by
  unfold SelectQuery.beforeHookStep
  rw [ht]

theorem afterHookStep_none (q : SelectQuery) (ht : q.table = none) :
    q.afterHookStep = ([], none) := by
  unfold SelectQuery.afterHookStep
  rw [ht]

theorem beforeHookStep_cap (q : SelectQuery) (t : TableData) (r : Option Err)
    (ht : q.table = some t) (hb : t.beforeSelect = some r) :
    q.beforeHookStep = ([Event.beforeHook], r) := by
  unfold SelectQuery.beforeHookStep
  rw [ht]
  dsimp only
  rw [hb]

theorem beforeHookStep_nocap (q : SelectQuery) (t : TableData)
    (ht : q.table = some t) (hb : t.beforeSelect = none) :
    q.beforeHookStep = ([], none) := by
  unfold SelectQuery.beforeHookStep
  rw [ht]
  dsimp only
  rw [hb]

theorem afterHookStep_cap (q : SelectQuery) (t : TableData) (r : Option Err)
    (ht : q.table = some t) (ha : t.afterSelect = some r) :
    q.afterHookStep = ([Event.afterHook], r) := by
  unfold SelectQuery.afterHookStep
  rw [ht]
  dsimp only
  rw [ha]

theorem afterHookStep_nocap (q : SelectQuery) (t : TableData)
    (ht : q.table = some t) (ha : t.afterSelect = none) :
    q.afterHookStep = ([], none) := by
  unfold SelectQuery.afterHookStep
  rw [ht]
  dsimp only
  rw [ha]

theorem beforeHookStep_shape (q : SelectQuery) :
    q.beforeHookStep.1 = [] ∨ q.beforeHookStep.1 = [Event.beforeHook] := by
  cases ht : q.table with
  | none => simp [SelectQuery.beforeHookStep, ht]
  | some t =>
    cases hb : t.beforeSelect with
    | none => simp [SelectQuery.beforeHookStep, ht, hb]
    | some r => simp [SelectQuery.beforeHookStep, ht, hb]

theorem afterHookStep_shape (q : SelectQuery) :
    q.afterHookStep.1 = [] ∨ q.afterHookStep.1 = [Event.afterHook] := by
  cases ht : q.table with
  | none => simp [SelectQuery.afterHookStep, ht]
  | some t =>
    cases ha : t.afterSelect with
    | none => simp [SelectQuery.afterHookStep, ht, ha]
    | some r => simp [SelectQuery.afterHookStep, ht, ha]

theorem joinStep_events (m : ScanModel) (n : Nat) :
    ∀ ev ∈ (SelectQuery.joinStep m n).1, ∃ nm, ev = Event.relQuery nm := by
  unfold SelectQuery.joinStep
  by_cases h : 0 < n
  · rw [if_pos h]
    cases m with
    | plain => intro ev hev; simp at hev
    | tm t =>
      intro ev hev
      obtain ⟨nm, hnm, _⟩ := selectJoinsRun_events t.joins ev hev
      exact ⟨nm, hnm⟩
  · rw [if_neg h]
    intro ev hev
    simp at hev

theorem joinStep_zero (m : ScanModel) : SelectQuery.joinStep m 0 = ([], none) := by
  unfold SelectQuery.joinStep
  simp

theorem joinStep_plain (n : Nat) : SelectQuery.joinStep ScanModel.plain n = ([], none) := by
  unfold SelectQuery.joinStep
  by_cases h : 0 < n
  · rw [if_pos h]
  · rw [if_neg h]

theorem joinStep_pos (t : TableModel) (n : Nat) (h : 0 < n) :
    SelectQuery.joinStep (ScanModel.tm t) n = selectJoinsRun t.joins := by
  unfold SelectQuery.joinStep
  rw [if_pos h]

theorem Scan_gmErr (q : SelectQuery) (fmter : Formatter) (e : Err)
    (scanRes : RowsResult) :
    q.Scan fmter (.error e) scanRes = ([], some e) := rfl

theorem Scan_beforeErr (q : SelectQuery) (fmter : Formatter) (m : ScanModel)
    (scanRes : RowsResult) (tr1 : List Event) (e : Err)
    (hb : q.beforeHookStep = (tr1, some e)) :
    q.Scan fmter (.ok m) scanRes = (tr1, some e) := by
  unfold SelectQuery.Scan
  dsimp only
  rw [hb]

theorem Scan_renderErr (q : SelectQuery) (fmter : Formatter) (m : ScanModel)
    (scanRes : RowsResult) (tr1 : List Event) (e : Err)
    (hb : q.beforeHookStep = (tr1, none))
    (hr : q.appendQuery fmter [] false = .error e) :
    q.Scan fmter (.ok m) scanRes = (tr1, some e) := by
  unfold SelectQuery.Scan
  dsimp only
  rw [hb]
  dsimp only
  rw [hr]

theorem Scan_scanErr (q : SelectQuery) (fmter : Formatter) (m : ScanModel)
    (tr1 : List Event) (sql : List Char) (e : Err)
    (hb : q.beforeHookStep = (tr1, none))
    (hr : q.appendQuery fmter [] false = .ok sql) :
    q.Scan fmter (.ok m) (.error e)
      = (tr1 ++ [Event.render sql, Event.exec], some e) := by
  unfold SelectQuery.Scan
  dsimp only
  rw [hb]
  dsimp only
  rw [hr]

theorem Scan_joinErr (q : SelectQuery) (fmter : Formatter) (m : ScanModel)
    (n : Nat) (tr1 tr3 : List Event) (sql : List Char) (e : Err)
    (hb : q.beforeHookStep = (tr1, none))
    (hr : q.appendQuery fmter [] false = .ok sql)
    (hj : SelectQuery.joinStep m n = (tr3, some e)) :
    q.Scan fmter (.ok m) (.ok n)
      = (tr1 ++ [Event.render sql, Event.exec] ++ tr3, some e) := by
  unfold SelectQuery.Scan
  dsimp only
  rw [hb]
  dsimp only
  rw [hr]
  dsimp only
  rw [hj]

theorem Scan_ok (q : SelectQuery) (fmter : Formatter) (m : ScanModel)
    (n : Nat) (tr1 tr3 : List Event) (sql : List Char)
    (hb : q.beforeHookStep = (tr1, none))
    (hr : q.appendQuery fmter [] false = .ok sql)
    (hj : SelectQuery.joinStep m n = (tr3, none)) :
    q.Scan fmter (.ok m) (.ok n)
      = (tr1 ++ [Event.render sql, Event.exec] ++ tr3 ++ q.afterHookStep.1,
         q.afterHookStep.2) := by
  unfold SelectQuery.Scan
  dsimp only
  rw [hb]
  dsimp only
  rw [hr]
  dsimp only
  rw [hj]

theorem joinStep_no_hooks (m : ScanModel) (n : Nat) (tr3 : List Event)
    (hj : SelectQuery.joinStep m n = (tr3, (SelectQuery.joinStep m n).2)) :
    Event.beforeHook ∉ tr3 ∧ Event.afterHook ∉ tr3 ∧ Event.exec ∉ tr3 := by
  have htr3 : ∀ ev ∈ tr3, ∃ nm, ev = Event.relQuery nm := by
    intro ev hev
    refine joinStep_events m n ev ?_
    have h1 : (SelectQuery.joinStep m n).1 = tr3 := by
      conv_lhs => rw [hj]
    rw [h1]
    exact hev
  refine ⟨?_, ?_, ?_⟩ <;> intro hmem <;> obtain ⟨nm, hnm⟩ := htr3 _ hmem <;> simp at hnm

/-- C5: when the bound entity type implements the before- or after-select hook
capability, `Scan` invokes the before hook exactly once, as the very first
step, before the SQL is rendered or executed; a before-hook error aborts the
operation with a trace consisting of that single hook invocation — no SQL is
rendered or executed; the after hook runs exactly once as the last step after
the rows are scanned (and after the relation follow-ups), its error becoming
the result; and no hook is invoked when no table model is bound. -/
theorem c5_select_hooks (q : SelectQuery) (fmter : Formatter) (gm : ModelResult)
    (scanRes : RowsResult) :
    (q.table = none →
      Event.beforeHook ∉ (q.Scan fmter gm scanRes).1 ∧
      Event.afterHook ∉ (q.Scan fmter gm scanRes).1) ∧
    (∀ t e m, q.table = some t → t.beforeSelect = some (some e) → gm = .ok m →
      q.Scan fmter gm scanRes = ([Event.beforeHook], some e)) ∧
    (∀ t m, q.table = some t → t.beforeSelect = some none → gm = .ok m →
      (q.Scan fmter gm scanRes).1.count Event.beforeHook = 1 ∧
      (q.Scan fmter gm scanRes).1.head? = some Event.beforeHook) ∧
    (∀ t m n r sql, q.table = some t →
      (t.beforeSelect = none ∨ t.beforeSelect = some none) →
      gm = .ok m → scanRes = .ok n →
      q.appendQuery fmter [] false = .ok sql →
      (SelectQuery.joinStep m n).2 = none →
      t.afterSelect = some r →
      ((q.Scan fmter gm scanRes).1.count Event.afterHook = 1 ∧
        (q.Scan fmter gm scanRes).1.getLast? = some Event.afterHook ∧
        Event.exec ∈ (q.Scan fmter gm scanRes).1 ∧
        (q.Scan fmter gm scanRes).2 = r)) := by
  refine ⟨?_, ?_, ?_, ?_⟩
  · intro ht
    have hb := beforeHookStep_none q ht
    have ha := afterHookStep_none q ht
    cases gm with
    | error e => rw [Scan_gmErr]; simp
    | ok m =>
      cases hr : q.appendQuery fmter [] false with
      | error e =>
        rw [Scan_renderErr q fmter m scanRes [] e hb hr]
        simp
      | ok sql =>
        cases scanRes with
        | error e =>
          rw [Scan_scanErr q fmter m [] sql e hb hr]
          simp
        | ok n =>
          rcases hj : SelectQuery.joinStep m n with ⟨tr3, r3⟩
          obtain ⟨hnb, hna, _⟩ := joinStep_no_hooks m n tr3 (by rw [hj])
          cases r3 with
          | some e =>
            rw [Scan_joinErr q fmter m n [] tr3 sql e hb hr hj]
            constructor
            · simp [List.mem_append, hnb]
            · simp [List.mem_append, hna]
          | none =>
            rw [Scan_ok q fmter m n [] tr3 sql hb hr hj, ha]
            constructor
            · simp [List.mem_append, hnb]
            · simp [List.mem_append, hna]
  · intro t e m ht hbs hgm
    subst hgm
    exact Scan_beforeErr q fmter m scanRes [Event.beforeHook] e
      (beforeHookStep_cap q t (some e) ht hbs)
  · intro t m ht hbs hgm
    subst hgm
    have hb := beforeHookStep_cap q t none ht hbs
    cases hr : q.appendQuery fmter [] false with
    | error e =>
      rw [Scan_renderErr q fmter m scanRes [Event.beforeHook] e hb hr]
      exact ⟨by simp, rfl⟩
    | ok sql =>
      cases scanRes with
      | error e =>
        rw [Scan_scanErr q fmter m [Event.beforeHook] sql e hb hr]
        constructor
        · simp [List.count_append, List.count_cons]
        · rfl
      | ok n =>
        rcases hj : SelectQuery.joinStep m n with ⟨tr3, r3⟩
        obtain ⟨hnb, _, _⟩ := joinStep_no_hooks m n tr3 (by rw [hj])
        have hc3 : tr3.count Event.beforeHook = 0 := List.count_eq_zero.mpr hnb
        cases r3 with
        | some e =>
          rw [Scan_joinErr q fmter m n [Event.beforeHook] tr3 sql e hb hr hj]
          constructor
          · simp [List.count_append, List.count_cons, hc3]
          · rfl
        | none =>
          rw [Scan_ok q fmter m n [Event.beforeHook] tr3 sql hb hr hj]
          rcases afterHookStep_shape q with h4 | h4 <;>
            exact ⟨by simp [List.count_append, List.count_cons, hc3, h4], rfl⟩
  · intro t m n r sql ht hbs hgm hsr hr hj2 has
    subst hgm
    subst hsr
    have ha := afterHookStep_cap q t r ht has
    rcases hj : SelectQuery.joinStep m n with ⟨tr3, r3⟩
    have hr3 : r3 = none := by rw [hj] at hj2; exact hj2
    subst hr3
    obtain ⟨_, hna, _⟩ := joinStep_no_hooks m n tr3 (by rw [hj])
    have hc3 : tr3.count Event.afterHook = 0 := List.count_eq_zero.mpr hna
    have hb : q.beforeHookStep = ([], none) ∨
        q.beforeHookStep = ([Event.beforeHook], none) := by
      rcases hbs with h | h
      · exact Or.inl (beforeHookStep_nocap q t ht h)
      · exact Or.inr (beforeHookStep_cap q t none ht h)
    rcases hb with hb | hb <;>
      (rw [Scan_ok q fmter m n _ tr3 sql hb hr hj, ha]
       refine ⟨?_, ?_, ?_, rfl⟩
       · simp [List.count_append, List.count_cons, hc3]
       · exact List.getLast?_concat _
       · simp [List.mem_append])

/-- C6: during `Scan`, follow-up relation queries are issued only after the
primary rows were scanned (every `relQuery` event sits strictly after the
`exec` event) and only when the scanned row count is positive and the
destination is table-model backed; with zero rows no follow-up query is
issued; `selectJoins` issues exactly one follow-up per non-to-one relation
reached by recursing through to-one relations (`issuedNames`), and a to-one
relation itself never issues a follow-up query — it only recurses into its
nested joins. -/
theorem c6_relation_followups (q : SelectQuery) (fmter : Formatter) (gm : ModelResult)
    (scanRes : RowsResult) :
    (scanRes = .ok 0 → ∀ nm, Event.relQuery nm ∉ (q.Scan fmter gm scanRes).1) ∧
    (∀ nm, Event.relQuery nm ∈ (q.Scan fmter gm scanRes).1 →
      ((∃ n, scanRes = .ok n ∧ 0 < n ∧ ∃ t, gm = .ok (ScanModel.tm t)) ∧
        ∃ t1 t2, (q.Scan fmter gm scanRes).1 = t1 ++ Event.exec :: t2 ∧
          (∀ nm2, Event.relQuery nm2 ∉ t1) ∧ Event.relQuery nm ∈ t2)) ∧
    (∀ js, (selectJoinsRun js).2 = none →
      (selectJoinsRun js).1 = (issuedNames js).map Event.relQuery) ∧
    (∀ js nm, Event.relQuery nm ∈ (selectJoinsRun js).1 → nm ∈ issuedNames js) ∧
    (∀ rt nm cols sql al tb sub se, rt.toOne = true →
      selectJoinsRun [join.mk rt nm cols sql al tb sub se] = selectJoinsRun sub) := by
  refine ⟨?_, ?_, ?_, ?_, ?_⟩
  · intro hs nm
    subst hs
    rcases hbp : q.beforeHookStep with ⟨tr1, r1⟩
    have htr1 : tr1 = [] ∨ tr1 = [Event.beforeHook] := by
      have h := beforeHookStep_shape q
      rw [hbp] at h
      exact h
    cases gm with
    | error e => rw [Scan_gmErr]; simp
    | ok m =>
      cases r1 with
      | some e =>
        rw [Scan_beforeErr q fmter m _ tr1 e hbp]
        rcases htr1 with h | h <;> simp [h]
      | none =>
        cases hr : q.appendQuery fmter [] false with
        | error e =>
          rw [Scan_renderErr q fmter m _ tr1 e hbp hr]
          rcases htr1 with h | h <;> simp [h]
        | ok sql =>
          rw [Scan_ok q fmter m 0 tr1 [] sql hbp hr (joinStep_zero m)]
          rcases afterHookStep_shape q with h4 | h4 <;>
            rcases htr1 with h | h <;>
            simp [h, h4, List.mem_append]
  · intro nm hm
    rcases hbp : q.beforeHookStep with ⟨tr1, r1⟩
    have htr1 : tr1 = [] ∨ tr1 = [Event.beforeHook] := by
      have h := beforeHookStep_shape q
      rw [hbp] at h
      exact h
    have hnr1 : ∀ nm2, Event.relQuery nm2 ∉ tr1 := by
      intro nm2
      rcases htr1 with h | h <;> simp [h]
    cases gm with
    | error e =>
      rw [Scan_gmErr] at hm
      simp at hm
    | ok m =>
      cases r1 with
      | some e =>
        rw [Scan_beforeErr q fmter m _ tr1 e hbp] at hm
        exact absurd hm (hnr1 nm)
      | none =>
        cases hr : q.appendQuery fmter [] false with
        | error e =>
          rw [Scan_renderErr q fmter m _ tr1 e hbp hr] at hm
          exact absurd hm (hnr1 nm)
        | ok sql =>
          cases scanRes with
          | error e =>
            rw [Scan_scanErr q fmter m tr1 sql e hbp hr] at hm
            simp only [List.mem_append] at hm
            rcases hm with hm | hm
            · exact absurd hm (hnr1 nm)
            · simp at hm
          | ok n =>
            rcases hj : SelectQuery.joinStep m n with ⟨tr3, r3⟩
            have hnra : ∀ nm2, Event.relQuery nm2 ∉ q.afterHookStep.1 := by
              intro nm2
              rcases afterHookStep_shape q with h4 | h4 <;> simp [h4]
            have hmem3 : Event.relQuery nm ∈ tr3 := by
              cases r3 with
              | some e =>
                rw [Scan_joinErr q fmter m n tr1 tr3 sql e hbp hr hj] at hm
                simp only [List.mem_append] at hm
                rcases hm with (hm | hm) | hm
                · exact absurd hm (hnr1 nm)
                · simp at hm
                · exact hm
              | none =>
                rw [Scan_ok q fmter m n tr1 tr3 sql hbp hr hj] at hm
                simp only [List.mem_append] at hm
                rcases hm with ((hm | hm) | hm) | hm
                · exact absurd hm (hnr1 nm)
                · simp at hm
                · exact hm
                · exact absurd hm (hnra nm)
            have hpos : 0 < n ∧ ∃ t, m = ScanModel.tm t := by
              rcases Nat.eq_zero_or_pos n with h0 | hnp
              · subst h0
                rw [joinStep_zero] at hj
                injection hj with h1 h2
                rw [← h1] at hmem3
                simp at hmem3
              · cases m with
                | plain =>
                  rw [joinStep_plain] at hj
                  injection hj with h1 h2
                  rw [← h1] at hmem3
                  simp at hmem3
                | tm t => exact ⟨hnp, t, rfl⟩
            obtain ⟨hnp, t, hmt⟩ := hpos
            refine ⟨⟨n, rfl, hnp, t, by rw [hmt]⟩, ?_⟩
            cases r3 with
            | some e =>
              rw [Scan_joinErr q fmter m n tr1 tr3 sql e hbp hr hj]
              refine ⟨tr1 ++ [Event.render sql], tr3, by simp, ?_, hmem3⟩
              intro nm2
              simp [List.mem_append, hnr1 nm2]
            | none =>
              rw [Scan_ok q fmter m n tr1 tr3 sql hbp hr hj]
              refine ⟨tr1 ++ [Event.render sql], tr3 ++ q.afterHookStep.1, by simp, ?_,
                List.mem_append_left _ hmem3⟩
              intro nm2
              simp [List.mem_append, hnr1 nm2]
  · exact fun js h => selectJoinsRun_ok js h
  · intro js nm hmem
    obtain ⟨nm2, heq, hin⟩ := selectJoinsRun_events js _ hmem
    injection heq with h
    rw [h]
    exact hin
  · intro rt nm cols sql al tb sub se hrt
    rcases h : selectJoinsRun sub with ⟨tr, e⟩
    cases e with
    | some e0 => simp [selectJoinsRun, hrt, h]
    | none => simp [selectJoinsRun, hrt, h]

/-- Sample metadata for concrete evaluations. -/
def sampleField : Field := ⟨"ID", "id"⟩

def sampleField2 : Field := ⟨"Name", "name"⟩

def sampleTable : TableData :=
  ⟨"model=User", "users", "u", [sampleField, sampleField2],
    [("id", sampleField), ("name", sampleField2)], none, none⟩

def childTable : TableData :=
  ⟨"model=Child", "children", "child", [sampleField], [("id", sampleField)], none, none⟩

/-- A to-many relation join: issues a follow-up query. -/
def hmJoin : join := join.mk .hasMany "Children" none "" "children" childTable [] none

/-- A to-one relation join with a nested to-many join. -/
def hoJoin : join :=
  join.mk .hasOne "Profile" none
    "JOIN profiles AS profile ON profile.user_id = u.id" "profile" childTable [hmJoin] none

def sampleTM : TableModel := ⟨sampleTable, [("Profile", hoJoin)], [hoJoin]⟩

def hookTable : TableData :=
  { sampleTable with beforeSelect := some none, afterSelect := some none }

def hookTM : TableModel := ⟨hookTable, [], []⟩

def hookQuery : SelectQuery := NewSelectQuery.Model hookTM

def followQuery : SelectQuery := NewSelectQuery.Model sampleTM

def sampleQuery : SelectQuery :=
  ((((NewSelectQuery.Model sampleTM).Where "id > ?" [Arg.value "10"]).Order
    ["name DESC"]).Limit 5).Offset 2

def groupQuery : SelectQuery :=
  ((NewSelectQuery.TableExpr "t" []).ColumnExpr "x" []).GroupExpr "x" []

def erroredQuery : SelectQuery := { NewSelectQuery with err := some "boom" }

def liteQuery : SelectQuery :=
  (((NewSelectQuery.TableExpr "t" []).ColumnExpr "x" []).OrderExpr "x DESC" []).Limit 3

theorem hookQuery_hasOneClosure : hookQuery.hasOneClosure = [] := by
  rw [show hookQuery.hasOneClosure = hasOneJoins hookQuery.modelJoins from rfl]
  rw [show hookQuery.modelJoins = [] from rfl]
  simp [hasOneJoins]

theorem hookQuery_render :
    hookQuery.appendQuery ⟨true⟩ [] false
      = Except.ok (L "SELECT u.id, u.name FROM users AS u") := by
  have hu : ∀ p ∈ hookQuery.union, ∃ s, p.2 = Except.ok s := by
    intro p hp
    rw [show hookQuery.union = [] from rfl] at hp
    exact absurd hp (List.not_mem_nil p)
  rw [appendQuery_false_eq hookQuery ⟨true⟩ [] rfl hu]
  simp only [SelectQuery.columnsSeg, SelectQuery.hasOneJoinSeg, hookQuery_hasOneClosure]
  rfl

theorem c1_witness :
    sampleQuery.err = none ∧
    (∀ p ∈ sampleQuery.union, ∃ s, p.2 = Except.ok s) ∧
    sampleQuery.appendQuery ⟨true⟩ [] false =
      .ok (([] : List Char) ++ sampleQuery.unionOpen ++ sampleQuery.withSeg ++
        L "SELECT " ++ distinctText sampleQuery ⟨true⟩ ++ sampleQuery.columnsSeg ⟨true⟩ ++
        sampleQuery.fromSeg ⟨true⟩ ++ sampleQuery.hasOneJoinSeg ++
        sampleQuery.joinsSeg ⟨true⟩ ++ sampleQuery.whereSeg ⟨true⟩ ++
        sampleQuery.groupSeg ⟨true⟩ ++ sampleQuery.havingSeg ⟨true⟩ ++
        sampleQuery.orderSeg ⟨true⟩ ++ sampleQuery.limitSeg ++ sampleQuery.offsetSeg ++
        sampleQuery.forSeg ⟨true⟩ ++ sampleQuery.unionTailSeg) ∧
    liteQuery.err = none ∧
    liteQuery.appendQuery ⟨true⟩ [] false =
      .ok (L "SELECT x FROM t ORDER BY x DESC LIMIT 3") := by
  have hu : ∀ p ∈ sampleQuery.union, ∃ s, p.2 = Except.ok s := by
    intro p hp
    rw [show sampleQuery.union = [] from rfl] at hp
    exact absurd hp (List.not_mem_nil p)
  exact ⟨rfl, hu, c1_render_clause_order sampleQuery ⟨true⟩ [] rfl hu, rfl, rfl⟩

theorem c2_witness :
    groupQuery.err = none ∧
    (!groupQuery.group.isEmpty || groupQuery.distinctOn.isSome) = true ∧
    groupQuery.countSQL ⟨true⟩ =
      .ok (L "WITH _count_wrapper AS (" ++ groupQuery.unionOpen ++ groupQuery.withSeg ++
        L "SELECT " ++ distinctText groupQuery ⟨true⟩ ++ groupQuery.columnsSeg ⟨true⟩ ++
        groupQuery.fromSeg ⟨true⟩ ++ groupQuery.hasOneJoinSeg ++
        groupQuery.joinsSeg ⟨true⟩ ++ groupQuery.whereSeg ⟨true⟩ ++
        groupQuery.groupSeg ⟨true⟩ ++ groupQuery.havingSeg ⟨true⟩ ++
        groupQuery.unionTailSeg ++ L ") SELECT count(*) FROM _count_wrapper") ∧
    groupQuery.countSQL ⟨true⟩ =
      .ok (L "WITH _count_wrapper AS (SELECT x FROM t GROUP BY x) SELECT count(*) FROM _count_wrapper") := by
  have hu : ∀ p ∈ groupQuery.union, ∃ s, p.2 = Except.ok s := by
    intro p hp
    rw [show groupQuery.union = [] from rfl] at hp
    exact absurd hp (List.not_mem_nil p)
  refine ⟨rfl, rfl, (c2_count_render groupQuery ⟨true⟩ rfl hu).2.2 rfl, ?_⟩
  rw [(c2_count_render groupQuery ⟨true⟩ rfl hu).2.2 rfl]
  simp only [SelectQuery.columnsSeg, SelectQuery.hasOneJoinSeg,
    show groupQuery.hasOneClosure = [] from by
      rw [show groupQuery.hasOneClosure = hasOneJoins groupQuery.modelJoins from rfl,
        show groupQuery.modelJoins = [] from rfl]
      simp [hasOneJoins]]
  rfl

theorem c3_witness :
    (NewSelectQuery.TableExpr "t" []).joins = [] ∧
    ((NewSelectQuery.TableExpr "t" []).JoinOn "a = b" []).err
      = some "bun: query has no joins" ∧
    ((NewSelectQuery.TableExpr "t" []).JoinOn "a = b" []).appendQuery ⟨true⟩ [] false
      = .error "bun: query has no joins" :=
  ⟨rfl,
    (c3_joinOn_no_joins (NewSelectQuery.TableExpr "t" []) "a = b" "c" [] [] rfl).1.1,
    (c3_joinOn_no_joins (NewSelectQuery.TableExpr "t" []) "a = b" "c" [] [] rfl).1.2.2
      ⟨true⟩ [] false⟩

theorem c4_witness :
    erroredQuery.err = some "boom" ∧
    erroredQuery.appendQuery ⟨true⟩ [] false = .error "boom" ∧
    (erroredQuery.Join "JOIN x" []).joins
      = erroredQuery.joins ++ [⟨SafeQuery "JOIN x" [], []⟩] :=
  ⟨rfl,
    (c4_amended erroredQuery "boom" "JOIN x" "g" "o" [] 1 rfl).1 ⟨true⟩ [] false,
    (c4_amended erroredQuery "boom" "JOIN x" "g" "o" [] 1 rfl).2.1⟩

theorem c5_witness :
    hookQuery.table = some hookTable ∧
    hookTable.beforeSelect = some none ∧
    hookTable.afterSelect = some none ∧
    (hookQuery.Scan ⟨true⟩ (.ok ScanModel.plain) (.ok 1)).1.count Event.beforeHook = 1 ∧
    (hookQuery.Scan ⟨true⟩ (.ok ScanModel.plain) (.ok 1)).1.head? = some Event.beforeHook ∧
    (hookQuery.Scan ⟨true⟩ (.ok ScanModel.plain) (.ok 1)).1.count Event.afterHook = 1 ∧
    (hookQuery.Scan ⟨true⟩ (.ok ScanModel.plain) (.ok 1)).1.getLast? = some Event.afterHook ∧
    (hookQuery.Scan ⟨true⟩ (.ok ScanModel.plain) (.ok 1)).2 = none := by
  have h1 := (c5_select_hooks hookQuery ⟨true⟩ (.ok ScanModel.plain) (.ok 1)).2.2.1
    hookTable ScanModel.plain rfl rfl rfl
  have h2 := (c5_select_hooks hookQuery ⟨true⟩ (.ok ScanModel.plain) (.ok 1)).2.2.2
    hookTable ScanModel.plain 1 none (L "SELECT u.id, u.name FROM users AS u")
    rfl (Or.inr rfl) rfl rfl hookQuery_render rfl rfl
  exact ⟨rfl, rfl, rfl, h1.1, h1.2, h2.1, h2.2.1, h2.2.2.2⟩

theorem sampleJoins_run :
    (selectJoinsRun sampleTM.joins).2 = none ∧
    issuedNames sampleTM.joins = ["Children"] := by
  constructor
  · rw [show sampleTM.joins = [hoJoin] from rfl]
    simp [selectJoinsRun, hoJoin, hmJoin, RelationType.toOne]
  · rw [show sampleTM.joins = [hoJoin] from rfl]
    simp [issuedNames, hoJoin, hmJoin, RelationType.toOne]

theorem c6_witness :
    issuedNames sampleTM.joins = ["Children"] ∧
    (selectJoinsRun sampleTM.joins).1 = [Event.relQuery "Children"] ∧
    (∀ nm, Event.relQuery nm ∉
      (followQuery.Scan ⟨true⟩ (.ok (ScanModel.tm sampleTM)) (.ok 0)).1) ∧
    hoJoin.relType.toOne = true ∧
    selectJoinsRun [hoJoin] = selectJoinsRun [hmJoin] := by
  refine ⟨sampleJoins_run.2, ?_, ?_, rfl, ?_⟩
  · have h := (c6_relation_followups followQuery ⟨true⟩
      (.ok (ScanModel.tm sampleTM)) (.ok 0)).2.2.1 sampleTM.joins sampleJoins_run.1
    rw [h, sampleJoins_run.2]
    rfl
  · exact fun nm => (c6_relation_followups followQuery ⟨true⟩
      (.ok (ScanModel.tm sampleTM)) (.ok 0)).1 rfl nm
  · exact (c6_relation_followups followQuery ⟨true⟩
      (.ok (ScanModel.tm sampleTM)) (.ok 0)).2.2.2.2 RelationType.hasOne "Profile" none
      "JOIN profiles AS profile ON profile.user_id = u.id" "profile" childTable
      [hmJoin] none rfl

theorem c7_witness :
    NewSelectQuery.err = none ∧
    NewSelectQuery.tableModel = none ∧
    (NewSelectQuery.Relation "X").err = some errNilModel ∧
    (NewSelectQuery.Model sampleTM).tableModel = some sampleTM ∧
    lookupRel sampleTM "Bogus" = none ∧
    ((NewSelectQuery.Model sampleTM).Relation "Bogus").err
      = some "model=User does not have relation=\"Bogus\"" := by
  refine ⟨rfl, rfl, ((c7_relation_errors NewSelectQuery "X" rfl).1 rfl).1, rfl, rfl, ?_⟩
  exact ((c7_relation_errors (NewSelectQuery.Model sampleTM) "Bogus" rfl).2
    sampleTM rfl rfl).1

theorem c9_witness :
    spaceIdx "name DeSc" = some 4 ∧
    (NewSelectQuery.Order ["name DeSc"]).order
      = [SafeQuery "? ?" [Arg.ident "name", Arg.safe "DeSc"]] ∧
    (NewSelectQuery.Order ["age"]).order = [UnsafeIdent "age"] ∧
    NewSelectQuery.Order [""] = NewSelectQuery ∧
    (NewSelectQuery.Order ["a bogus"]).order = [UnsafeIdent "a bogus"] := by
  refine ⟨by decide, ?_, ?_, (c9_order_parsing NewSelectQuery "").1 rfl, ?_⟩
  · have h := ((c9_order_parsing NewSelectQuery "name DeSc").2.2 4 (by decide)).1 (by decide)
    rw [h]
    rfl
  · have h := (c9_order_parsing NewSelectQuery "age").2.1 (by decide) (by decide)
    rw [h]
    rfl
  · have h := ((c9_order_parsing NewSelectQuery "a bogus").2.2 1 (by decide)).2 (by decide)
    rw [h]
    rfl

theorem c10_witness :
    (NewSelectQuery.Limit 7).err = none ∧
    ((NewSelectQuery.Limit 7).limitSeg = [] ↔ (NewSelectQuery.Limit 7).limit = 0) ∧
    (NewSelectQuery.Limit 7).limitSeg = L " LIMIT 7" ∧
    (NewSelectQuery.Limit 7).appendQuery ⟨true⟩ [] false = .ok (L "SELECT * LIMIT 7") := by
  have hu : ∀ p ∈ (NewSelectQuery.Limit 7).union, ∃ s, p.2 = Except.ok s := by
    intro p hp
    rw [show (NewSelectQuery.Limit 7).union = [] from rfl] at hp
    exact absurd hp (List.not_mem_nil p)
  exact ⟨rfl, (c10_limit_offset (NewSelectQuery.Limit 7) ⟨true⟩ [] rfl hu).2.1, rfl, rfl⟩

end Bun
